import Mathlib

/-!
Verification of the Triple Seven card game engine.

This file gives a shallow embedding, in Lean, of the game's two rule
engines and the pure helpers they share:

* the server-authoritative engine (`game-engine.ts`): `processDrawFromDeck`,
  `processDrawFromDiscard`, `processSwapWithHand`, `processDiscardDrawn`,
  `processPowerTarget`, `advanceTurn`, `endGame`, `executeAITurnServer`,
  and the per-seat view projection `buildClientView` (`game-room.ts`);
* the offline client engine (`game-store.ts` zustand store): `drawFromDeck`,
  `drawFromDiscard`, `swapWithHand`, `discardDrawn`, `rotateHands`,
  `_endTurn`, `_endGame`;
* the shared card helpers of `types/game.ts` (`getCardValue`,
  `getCardPower`, `calculateHandScore`, `getNextSeat`, `powerName`)
  and the memory helper `updateMemory` of `ai-logic.ts`.

Modelling conventions:

* JavaScript objects are Lean structures; optional fields are `Option`s and
  the optional boolean `powerUsed` (absent = falsy) is a plain `Bool`.
* Arrays are `List`s.  An element read `a[i]` followed by a member access
  (`a[i].isLocked`) throws a `TypeError` in JavaScript when `i` is out of
  bounds; transitions that can hit such a read on client-supplied indices
  are embedded in the `Option` monad, `none` standing for the thrown
  exception.  Transitions whose reads are always guarded are total.
* `Map`s (the per-AI memories) are embedded as functions to `Option`,
  with insert/delete as pointwise update, which matches the source's
  copy-on-write usage of `new Map`.
* The zustand store actions mutate one global state via `set`; they are
  embedded as functions `GameState → GameState × List Toast`, the second
  component collecting the `addToast` calls.  Toast ids, the toast
  auto-expiry timers, the turn timers and the volume settings are
  wall-clock presentation bookkeeping and are not part of the embedding,
  as are the `setTimeout` callbacks (AI scheduling, peek expiry).
* The AI strategy functions (`aiChooseDraw`, `aiDecide`, `aiPowerTarget`)
  draw on `Math.random`; `executeAITurnServer` is therefore parametrised
  by an `AIOracle` recording the outcome of each of these calls.
-/

/-- Suits of a standard card (`types/game.ts` `Suit`). -/
inductive Suit
  | hearts | diamonds | clubs | spades
deriving DecidableEq, Repr

/-- Ranks (`types/game.ts` `Rank`); `nK` stands for the string rank `'K'` etc. -/
inductive Rank
  | A | n2 | n3 | n4 | n5 | n6 | n7 | n8 | n9 | n10 | J | Q | K
deriving DecidableEq, Repr

/-- Joker colours (`types/game.ts` `JokerColor`). -/
inductive JokerColor
  | red | black
deriving DecidableEq, Repr

/-- The five power kinds (`types/game.ts` `PowerType`). -/
inductive PowerType
  | unlock | swap | peek | lock | mass_swap
deriving DecidableEq, Repr

/-- AI difficulty (`types/game.ts` `Difficulty`). -/
inductive Difficulty
  | beginner | intermediate | hardcore
deriving DecidableEq, Repr

/-- Player kind (`types/game.ts` `PlayerKind`). -/
inductive PlayerKind
  | human | ai
deriving DecidableEq, Repr

/-- Origin of the drawn card (the `'deck' | 'discard'` union). -/
inductive DrawSource
  | deck | discard
deriving DecidableEq, Repr

/-- The server engine's phase union (`game-engine.ts` `ServerGameState.phase`). -/
inductive ServerPhase
  | turn_draw | turn_decision | power_target | game_over
deriving DecidableEq, Repr

/-- The client store's phase union (`types/game.ts` `GamePhase`). -/
inductive GamePhase
  | menu | lobby | dealing | turn_draw | turn_decision | power_target | game_over | tutorial
deriving DecidableEq, Repr

/-- Toast severity (`toastType` field). -/
inductive ToastType
  | info | power | warning | success
deriving DecidableEq, Repr

/-- A card (`types/game.ts` `Card`).  `id` is the unique identity token. -/
structure Card where
  id : String
  suit : Option Suit
  rank : Option Rank
  isJoker : Bool
  jokerColor : Option JokerColor
  isFaceUp : Bool
  isLocked : Bool
  isSelected : Bool
  isPeeking : Bool
  powerUsed : Bool
deriving DecidableEq, Repr

/-- A seated player (`types/game.ts` `PlayerInfo`). -/
structure PlayerInfo where
  id : String
  seatIndex : Nat
  kind : PlayerKind
  name : String
  hand : List Card
  score : Nat
  isLocal : Bool
deriving DecidableEq, Repr

/-- Card point value (`types/game.ts` `getCardValue`): joker 10, 7 → 0,
A → 1, 10/J/Q/K → 10, otherwise face value.  A non-joker card always
carries a rank (deck construction invariant); the `none` branch, `NaN` in
the source, is given the junk value 0. -/
def getCardValue (card : Card) : Nat :=
  if card.isJoker then 10
  else match card.rank with
    | some Rank.n7 => 0
    | some Rank.A => 1
    | some Rank.n10 => 10
    | some Rank.J => 10
    | some Rank.Q => 10
    | some Rank.K => 10
    | some Rank.n2 => 2
    | some Rank.n3 => 3
    | some Rank.n4 => 4
    | some Rank.n5 => 5
    | some Rank.n6 => 6
    | some Rank.n8 => 8
    | some Rank.n9 => 9
    | none => 0

/-- Power granted by discarding a card (`types/game.ts` `getCardPower`). -/
def getCardPower (card : Card) : Option PowerType :=
  if card.powerUsed then none
  else if card.isJoker then some PowerType.mass_swap
  else match card.rank with
    | some Rank.n10 => some PowerType.unlock
    | some Rank.J => some PowerType.swap
    | some Rank.Q => some PowerType.peek
    | some Rank.K => some PowerType.lock
    | _ => none

/-- Sum of card values of a hand (`types/game.ts` `calculateHandScore`). -/
def calculateHandScore (hand : List Card) : Nat :=
  hand.foldl (fun total card => total + getCardValue card) 0

/-- Round-robin successor seat (`types/game.ts` `getNextSeat`, total = 4). -/
def getNextSeat (current : Nat) : Nat :=
  (current + 1) % 4

/-- Display name of a power (`types/game.ts` `powerName`). -/
def powerName (power : PowerType) : String :=
  match power with
  | PowerType.unlock => "Unlock"
  | PowerType.swap => "Swap"
  | PowerType.peek => "Peek"
  | PowerType.lock => "Lock"
  | PowerType.mass_swap => "Mass Swap"

/-- String shown for a card's rank in a JS template literal
(`null` prints as "null"). -/
def rankLabel (rank : Option Rank) : String :=
  match rank with
  | some Rank.A => "A"
  | some Rank.n2 => "2"
  | some Rank.n3 => "3"
  | some Rank.n4 => "4"
  | some Rank.n5 => "5"
  | some Rank.n6 => "6"
  | some Rank.n7 => "7"
  | some Rank.n8 => "8"
  | some Rank.n9 => "9"
  | some Rank.n10 => "10"
  | some Rank.J => "J"
  | some Rank.Q => "Q"
  | some Rank.K => "K"
  | none => "null"

/-- Per-AI memory (`types/game.ts` `AIMemory`).  The nested
`Map<number, Map<number, Card>>` is embedded pointwise: `knownCards s i`
is the remembered card of seat `s` at hand position `i`. -/
structure AIMemory where
  knownCards : Nat → Nat → Option Card
  discardedCards : List Card

/-- `types/game.ts` `createEmptyAIMemory`. -/
def createEmptyAIMemory : AIMemory :=
  { knownCards := fun _ _ => none, discardedCards := [] }

/-- `ai-logic.ts` `updateMemory`: records card at (seat, index). -/
def updateMemory (memory : AIMemory) (seatIndex cardIndex : Nat) (card : Card) : AIMemory :=
  { knownCards := fun s i =>
      if s = seatIndex ∧ i = cardIndex then some card else memory.knownCards s i,
    discardedCards := memory.discardedCards }

/-- An engine toast event (`game-engine.ts` `GameEvent`; the `type` field is
always `'toast'` and is omitted). -/
structure GameEvent where
  message : String
  toastType : ToastType
deriving DecidableEq, Repr

/-- The authoritative state (`game-engine.ts` `ServerGameState`).
`aiMemories` embeds the `Map<number, AIMemory>` pointwise by seat. -/
structure ServerGameState where
  deck : List Card
  discardPile : List Card
  players : List PlayerInfo
  currentTurnSeat : Nat
  drawnCard : Option Card
  drawnFrom : Option DrawSource
  activePower : Option PowerType
  powerSourceSeat : Option Nat
  aiMemories : Nat → Option AIMemory
  winnerSeat : Option Nat
  turnCount : Nat
  difficulty : Difficulty
  phase : ServerPhase
  swapSource : Option (Nat × Nat)

/-- Result of a server transition (`game-engine.ts` `EngineResult`). -/
structure EngineResult where
  state : ServerGameState
  events : List GameEvent

/-- The warning toast returned by every guard rejection. -/
def invalidEvent : GameEvent :=
  { message := "Invalid action", toastType := ToastType.warning }

/-- Shorthand warning event. -/
def warnEvent (message : String) : GameEvent :=
  { message := message, toastType := ToastType.warning }

/-- Shorthand info event. -/
def infoEvent (message : String) : GameEvent :=
  { message := message, toastType := ToastType.info }

/-- The power-trigger toast (template literal of `processSwapWithHand`
and `processDiscardDrawn`). -/
def powerTriggerEvent (card : Card) (power : PowerType) : GameEvent :=
  { message := (if card.isJoker then "Joker" else rankLabel card.rank)
      ++ " power: " ++ powerName power ++ "!",
    toastType := ToastType.power }

/-- `game-engine.ts` `processDrawFromDeck`. -/
def processDrawFromDeck (state : ServerGameState) (seat : Nat) : EngineResult :=
  match state.deck with
  | [] => { state := state, events := [invalidEvent] }
  | c :: rest =>
    if state.phase ≠ ServerPhase.turn_draw ∨ state.currentTurnSeat ≠ seat then
      { state := state, events := [invalidEvent] }
    else
      { state := { state with
          deck := rest,
          drawnCard := some { c with isFaceUp := true },
          drawnFrom := some DrawSource.deck,
          phase := ServerPhase.turn_decision },
        events := [] }

/-- `game-engine.ts` `processDrawFromDiscard`.  Note: unlike the offline
store, the server state has no discard-burn flag, so no burn check
appears here. -/
def processDrawFromDiscard (state : ServerGameState) (seat : Nat) : EngineResult :=
  match state.discardPile.getLast? with
  | none => { state := state, events := [invalidEvent] }
  | some top =>
    if state.phase ≠ ServerPhase.turn_draw ∨ state.currentTurnSeat ≠ seat then
      { state := state, events := [invalidEvent] }
    else
      { state := { state with
          discardPile := state.discardPile.dropLast,
          drawnCard := some { top with isFaceUp := true },
          drawnFrom := some DrawSource.discard,
          phase := ServerPhase.turn_decision },
        events := [] }

/-- Reveal a hand and compute its score (body of `endGame`'s map). -/
def revealAndScore (p : PlayerInfo) : PlayerInfo :=
  let revealedHand := p.hand.map (fun c => { c with isFaceUp := true })
  { p with hand := revealedHand, score := calculateHandScore revealedHand }

/-- The winner-selection loop of `endGame`/`_endGame`: running pair of
`(winnerSeat, lowestScore)`, the `none` sentinel standing for `Infinity`. -/
def winnerFold (players : List PlayerInfo) : Nat × Option Nat :=
  players.foldl
    (fun acc p =>
      match acc.2 with
      | none => (p.seatIndex, some p.score)
      | some low => if p.score < low then (p.seatIndex, some p.score) else acc)
    ((0 : Nat), (none : Option Nat))

/-- `game-engine.ts` `endGame`: reveal all hands, score them, pick the
winner (first strictly-lowest score), phase → game_over. -/
def endGame (state : ServerGameState) (events : List GameEvent) : EngineResult :=
  let newPlayers := state.players.map revealAndScore
  let pw := winnerFold newPlayers
  let winnerSeat := pw.1
  let winnerName :=
    match newPlayers[winnerSeat]? with
    | some wp => wp.name
    | none => "undefined"
  { state := { state with
      players := newPlayers,
      winnerSeat := some winnerSeat,
      phase := ServerPhase.game_over },
    events := events ++
      [{ message := winnerName ++ " wins with " ++
           toString (pw.2.getD 0) ++ " points!",
         toastType := ToastType.success }] }

/-- `game-engine.ts` `advanceTurn`. -/
def advanceTurn (state : ServerGameState) (events : List GameEvent) : EngineResult :=
  if state.deck = [] then endGame state events
  else
    let nextSeat := getNextSeat state.currentTurnSeat
    { state := { state with
        currentTurnSeat := nextSeat,
        turnCount := state.turnCount + (if nextSeat = 0 then 1 else 0),
        phase := ServerPhase.turn_draw,
        swapSource := none },
      events := events }

/-- `game-engine.ts` `processSwapWithHand`.  The read
`player.hand[handIndex].isLocked` throws in JS when `handIndex` (or the
acting seat, in a malformed state) is out of bounds: embedded as `none`. -/
def processSwapWithHand (state : ServerGameState) (seat handIndex : Nat) :
    Option EngineResult :=
  match state.drawnCard with
  | none => some { state := state, events := [invalidEvent] }
  | some drawn =>
    if state.phase ≠ ServerPhase.turn_decision ∨ state.currentTurnSeat ≠ seat then
      some { state := state, events := [invalidEvent] }
    else do
      let player ← state.players[seat]?
      let slot ← player.hand[handIndex]?
      if slot.isLocked then
        some { state := state, events := [warnEvent ("Card is locked!")] }
      else
        let removedCard := { slot with isFaceUp := true }
        let newPlayers := state.players.set seat
          { player with hand := player.hand.set handIndex { drawn with isFaceUp := false } }
        let newDiscardPile := state.discardPile ++ [removedCard]
        let power := getCardPower removedCard
        let newMemories := fun a =>
          (state.aiMemories a).map (fun mem =>
            let m1 : AIMemory :=
              { knownCards := fun s i =>
                  if s = seat ∧ i = handIndex then none else mem.knownCards s i,
                discardedCards := mem.discardedCards ++ [removedCard] }
            if a = seat then updateMemory m1 seat handIndex drawn else m1)
        let events :=
          match power with
          | some p => [powerTriggerEvent removedCard p]
          | none => []
        let newState : ServerGameState := { state with
          players := newPlayers,
          discardPile := newDiscardPile,
          drawnCard := none,
          drawnFrom := none,
          aiMemories := newMemories,
          activePower := power,
          powerSourceSeat := match power with | some _ => some seat | none => none,
          phase := match power with | some _ => ServerPhase.power_target | none => state.phase }
        match power with
        | some _ => some { state := newState, events := events }
        | none => some (advanceTurn newState events)

/-- `game-engine.ts` `processDiscardDrawn`.  No unlock suppression and no
burn flag here, unlike the offline `discardDrawn`. -/
def processDiscardDrawn (state : ServerGameState) (seat : Nat) : EngineResult :=
  match state.drawnCard with
  | none => { state := state, events := [invalidEvent] }
  | some drawn =>
    if state.phase ≠ ServerPhase.turn_decision ∨ state.currentTurnSeat ≠ seat then
      { state := state, events := [invalidEvent] }
    else
      let discarded := { drawn with isFaceUp := true }
      let newDiscardPile := state.discardPile ++ [discarded]
      let power := getCardPower discarded
      let newMemories := fun a =>
        (state.aiMemories a).map (fun mem =>
          { mem with discardedCards := mem.discardedCards ++ [discarded] })
      let events :=
        match power with
        | some p => [powerTriggerEvent discarded p]
        | none => []
      let newState : ServerGameState := { state with
        discardPile := newDiscardPile,
        drawnCard := none,
        drawnFrom := none,
        aiMemories := newMemories,
        activePower := power,
        powerSourceSeat := match power with | some _ => some seat | none => none,
        phase := match power with | some _ => ServerPhase.power_target | none => state.phase }
      match power with
      | some _ => { state := newState, events := events }
      | none => advanceTurn newState events

/-- The common tail of `processPowerTarget`'s switch: reset the power and
swap source, install the updated players and memories, advance the turn. -/
def finishPower (state : ServerGameState) (newPlayers : List PlayerInfo)
    (newMemories : Nat → Option AIMemory) (events : List GameEvent) : EngineResult :=
  advanceTurn
    { state with
      players := newPlayers,
      activePower := none,
      powerSourceSeat := none,
      aiMemories := newMemories,
      swapSource := none }
    events

/-- One iteration of the `mass_swap` loop of `processPowerTarget`: swap
slot `i` of the acting seat and the target seat when both are unlocked.
The second re-read of the target models the in-place sequential writes
(and their aliasing when `targetSeat = seat`). -/
def massSwapStep (seat targetSeat : Nat) (ps : List PlayerInfo) (i : Nat) :
    Option (List PlayerInfo) := do
  let a ← ps[seat]?
  let ca ← a.hand[i]?
  let b ← ps[targetSeat]?
  let cb ← b.hand[i]?
  if ¬ca.isLocked ∧ ¬cb.isLocked then
    let ps1 := ps.set seat { a with hand := a.hand.set i cb }
    let b1 ← ps1[targetSeat]?
    some (ps1.set targetSeat { b1 with hand := b1.hand.set i ca })
  else
    some ps

/-- The `for (let i = 0; i < 4; i++)` loop of the `mass_swap` case. -/
def massSwapHands (ps : List PlayerInfo) (seat targetSeat : Nat) :
    Option (List PlayerInfo) :=
  [0, 1, 2, 3].foldlM (massSwapStep seat targetSeat) ps

/-- `game-engine.ts` `processPowerTarget`.  Out-of-bounds element reads
followed by member access throw in JS and are embedded as `none`; the JS
`lock` case spreads a possibly-`undefined` element instead of reading a
member, producing a degenerate card object on an out-of-bounds index —
that corner (unreachable from the UI and from every theorem below, all of
which use in-bounds indices) is also embedded as `none`. -/
def processPowerTarget (state : ServerGameState) (seat targetSeat targetIndex : Nat) :
    Option EngineResult :=
  match state.activePower with
  | none => some { state := state, events := [] }
  | some power =>
    if state.currentTurnSeat ≠ seat then some { state := state, events := [] }
    else
      match power with
      | PowerType.unlock => do
        let tp ← state.players[targetSeat]?
        let tc ← tp.hand[targetIndex]?
        if tc.isLocked then
          let newPlayers := state.players.set targetSeat
            { tp with hand := tp.hand.set targetIndex { tc with isLocked := false } }
          some (finishPower state newPlayers state.aiMemories
            [infoEvent ("Unlocked " ++ tp.name ++ "\x27s card!")])
        else
          some (finishPower state state.players state.aiMemories [])
      | PowerType.peek => do
        let tp ← state.players[targetSeat]?
        let tc ← tp.hand[targetIndex]?
        if tc.isLocked then
          some { state := state, events := [warnEvent ("Cannot peek at locked card")] }
        else
          let newPlayers := state.players.set targetSeat
            { tp with hand := tp.hand.set targetIndex { tc with isPeeking := true } }
          some (finishPower state newPlayers state.aiMemories
            [infoEvent ("Peeking at " ++ tp.name ++ "\x27s card...")])
      | PowerType.swap =>
        (match state.swapSource with
        | none => do
          let tp ← state.players[targetSeat]?
          let tc ← tp.hand[targetIndex]?
          if tc.isLocked then
            some { state := state, events := [warnEvent ("Cannot select locked card")] }
          else
            some { state := { state with swapSource := some (targetSeat, targetIndex) },
                   events := [infoEvent ("Select second card to swap")] }
        | some src =>
          if src.1 = targetSeat ∧ src.2 = targetIndex then
            some { state := state, events := [warnEvent ("Select a different card")] }
          else do
            let tp ← state.players[targetSeat]?
            let tc ← tp.hand[targetIndex]?
            if tc.isLocked then
              some { state := state, events := [warnEvent ("Cannot swap with locked card")] }
            else do
              let sp ← state.players[src.1]?
              let sc ← sp.hand[src.2]?
              let ps1 := state.players.set src.1 { sp with hand := sp.hand.set src.2 tc }
              let tp1 ← ps1[targetSeat]?
              let newPlayers := ps1.set targetSeat
                { tp1 with hand := tp1.hand.set targetIndex sc }
              let newMemories := fun a =>
                (state.aiMemories a).map (fun mem =>
                  { mem with knownCards := fun s i =>
                      if (s = src.1 ∧ i = src.2) ∨ (s = targetSeat ∧ i = targetIndex) then none
                      else mem.knownCards s i })
              some (finishPower state newPlayers newMemories
                [infoEvent ("Swapped cards!")]))
      | PowerType.lock => do
        let tp ← state.players[targetSeat]?
        let tc ← tp.hand[targetIndex]?
        let newPlayers := state.players.set targetSeat
          { tp with hand := tp.hand.set targetIndex { tc with isLocked := true } }
        some (finishPower state newPlayers state.aiMemories
          [infoEvent ("Locked " ++ tp.name ++ "\x27s card!")])
      | PowerType.mass_swap => do
        let newPlayers ← massSwapHands state.players seat targetSeat
        let targetName :=
          match state.players[targetSeat]? with
          | some p => p.name
          | none => "undefined"
        let newMemories := fun a =>
          (state.aiMemories a).map (fun mem =>
            { mem with knownCards := fun s i =>
                if s = seat ∨ s = targetSeat then none else mem.knownCards s i })
        some (finishPower state newPlayers newMemories
          [{ message := "Mass swap with " ++ targetName ++ "!",
             toastType := ToastType.power }])

/-- The `'swap' | 'discard'` action union of `ai-logic.ts` `AIDecision`. -/
inductive AIAction
  | swap | discard
deriving DecidableEq, Repr

/-- `ai-logic.ts` `AIDecision`. -/
structure AIDecision where
  action : AIAction
  swapIndex : Option Nat

/-- `ai-logic.ts` `AIPowerDecision`. -/
structure AIPowerDecision where
  power : PowerType
  targetSeat : Nat
  targetIndex : Nat
  swapOwnIndex : Option Nat

/-- Outcomes of the three random AI strategy calls made during one
`executeAITurnServer` run (each is called at most once per run). -/
structure AIOracle where
  drawChoice : DrawSource
  decision : AIDecision
  powerDecision : Option AIPowerDecision

/-- `game-engine.ts` `applyAIPowerServer`: applies an AI's chosen power to
the working player list and its own memory, returning the mutated pair
plus the emitted events.  Out-of-bounds member reads are `none`. -/
def applyAIPowerServer (decision : AIPowerDecision) (aiSeat : Nat)
    (players : List PlayerInfo) (memory : AIMemory) :
    Option (List PlayerInfo × AIMemory × List GameEvent) := do
  let aiPlayer ← players[aiSeat]?
  match decision.power with
  | PowerType.unlock => do
    let tp ← players[decision.targetSeat]?
    let tc ← tp.hand[decision.targetIndex]?
    if tc.isLocked then
      some (players.set decision.targetSeat
          { tp with hand := tp.hand.set decision.targetIndex { tc with isLocked := false } },
        memory,
        [infoEvent (aiPlayer.name ++ " unlocked a card")])
    else
      some (players, memory, [])
  | PowerType.peek => do
    let tp ← players[decision.targetSeat]?
    let tc ← tp.hand[decision.targetIndex]?
    if ¬tc.isLocked then
      some (players,
        { memory with knownCards := fun s i =>
            if s = decision.targetSeat ∧ i = decision.targetIndex then some tc
            else memory.knownCards s i },
        [infoEvent (aiPlayer.name ++ " peeked at a card")])
    else
      some (players, memory, [])
  | PowerType.swap => do
    let ownIdx := decision.swapOwnIndex.getD 0
    let own ← players[aiSeat]?
    let ownCard ← own.hand[ownIdx]?
    let tp ← players[decision.targetSeat]?
    let tc ← tp.hand[decision.targetIndex]?
    if ¬ownCard.isLocked ∧ ¬tc.isLocked then
      let ps1 := players.set aiSeat { own with hand := own.hand.set ownIdx tc }
      let tp1 ← ps1[decision.targetSeat]?
      let ps2 := ps1.set decision.targetSeat
        { tp1 with hand := tp1.hand.set decision.targetIndex ownCard }
      some (ps2,
        { memory with knownCards := fun s i =>
            if (s = aiSeat ∧ i = ownIdx) ∨
               (s = decision.targetSeat ∧ i = decision.targetIndex) then none
            else memory.knownCards s i },
        [warnEvent (aiPlayer.name ++ " swapped cards with " ++ tp.name ++ "!")])
    else
      some (players, memory, [])
  | PowerType.lock => do
    let tp ← players[decision.targetSeat]?
    let tc ← tp.hand[decision.targetIndex]?
    some (players.set decision.targetSeat
        { tp with hand := tp.hand.set decision.targetIndex { tc with isLocked := true } },
      memory,
      [infoEvent (aiPlayer.name ++ " locked a card")])
  | PowerType.mass_swap => do
    let ps ← [0, 1, 2, 3].foldlM (massSwapStep aiSeat decision.targetSeat) players
    some (ps,
      { memory with knownCards := fun s i =>
          if s = aiSeat ∨ s = decision.targetSeat then none else memory.knownCards s i },
      [{ message := aiPlayer.name ++ " used Mass Swap!", toastType := ToastType.power }])

/-- The power-announcement toast of `executeAITurnServer`. -/
def aiPowerEvent (name : String) (power : PowerType) : GameEvent :=
  { message := name ++ " used " ++ powerName power ++ "!", toastType := ToastType.power }

/-- Tail of `executeAITurnServer`: install the mutated working copies and
either end the game (deck exhausted) or advance the turn. -/
def finishAITurn (state : ServerGameState) (seat : Nat) (players : List PlayerInfo)
    (deck discardPile : List Card) (memory : AIMemory) (events : List GameEvent) :
    EngineResult :=
  let newState : ServerGameState := { state with
    players := players,
    deck := deck,
    discardPile := discardPile,
    aiMemories := fun a => if a = seat then some memory else state.aiMemories a }
  if deck = [] then endGame newState events else advanceTurn newState events

/-- `game-engine.ts` `executeAITurnServer`, parametrised by the outcomes
of the random strategy calls (`AIOracle`).  If the seat on turn is not an
AI — or the deck is empty — the game is ended immediately (the source's
first guard).  The `opponents` lists of the source are consumed only by
the oracled `aiPowerTarget` call and so do not appear. -/
def executeAITurnServer (oracle : AIOracle) (state : ServerGameState) :
    Option EngineResult := do
  let seat := state.currentTurnSeat
  let aiPlayer ← state.players[seat]?
  if aiPlayer.kind ≠ PlayerKind.ai ∨ state.deck = [] then
    some (endGame state [])
  else do
    let memory := (state.aiMemories seat).getD createEmptyAIMemory
    let discardTop := state.discardPile.getLast?
    -- Draw: from the discard pile if chosen and non-empty, else from the deck
    let drawRes ←
      match oracle.drawChoice, discardTop with
      | DrawSource.discard, some top =>
        some ({ top with isFaceUp := true }, state.deck, state.discardPile.dropLast,
          [infoEvent (aiPlayer.name ++ " drew from discard")])
      | _, _ =>
        (state.deck.head?).map (fun c =>
          ({ c with isFaceUp := true }, state.deck.drop 1, state.discardPile,
            [infoEvent (aiPlayer.name ++ " drew from deck")]))
    let drawnCard := drawRes.1
    let deck1 := drawRes.2.1
    let pile1 := drawRes.2.2.1
    let ev1 := drawRes.2.2.2
    -- Decide
    match oracle.decision.action, oracle.decision.swapIndex with
    | AIAction.swap, some idx => do
      let cur ← state.players[seat]?
      let slot ← cur.hand[idx]?
      if ¬slot.isLocked then
        let removed := { slot with isFaceUp := true }
        let players1 := state.players.set seat
          { cur with hand := cur.hand.set idx { drawnCard with isFaceUp := false } }
        let pile2 := pile1 ++ [removed]
        let mem1 := updateMemory memory seat idx drawnCard
        let mem2 := { mem1 with discardedCards := mem1.discardedCards ++ [removed] }
        let ev2 := ev1 ++ [infoEvent (aiPlayer.name ++ " swapped a card")]
        match getCardPower removed with
        | some p =>
          (match oracle.powerDecision with
          | some pd => do
            let applied ← applyAIPowerServer pd seat players1 mem2
            some (finishAITurn state seat applied.1 deck1 pile2 applied.2.1
              ((ev2 ++ [aiPowerEvent aiPlayer.name p]) ++ applied.2.2))
          | none =>
            some (finishAITurn state seat players1 deck1 pile2 mem2
              (ev2 ++ [aiPowerEvent aiPlayer.name p])))
        | none =>
          some (finishAITurn state seat players1 deck1 pile2 mem2 ev2)
      else
        -- locked fallback: the drawn card is discarded, with no memory
        -- update and no power check (`game-engine.ts` line 820)
        some (finishAITurn state seat state.players deck1
          (pile1 ++ [{ drawnCard with isFaceUp := true }]) memory ev1)
    | _, _ => do
      let discarded := { drawnCard with isFaceUp := true }
      let pile2 := pile1 ++ [discarded]
      let mem2 := { memory with discardedCards := memory.discardedCards ++ [discarded] }
      match getCardPower discarded with
      | some p =>
        (match oracle.powerDecision with
        | some pd => do
          let applied ← applyAIPowerServer pd seat state.players mem2
          some (finishAITurn state seat applied.1 deck1 pile2 applied.2.1
            ((ev1 ++ [aiPowerEvent aiPlayer.name p]) ++ applied.2.2))
        | none =>
          some (finishAITurn state seat state.players deck1 pile2 mem2
            (ev1 ++ [aiPowerEvent aiPlayer.name p])))
      | none =>
        some (finishAITurn state seat state.players deck1 pile2 mem2 ev1)

/-- Per-player slice of the filtered view (`ws-messages.ts` `ClientPlayerView`);
hidden cards are `none`, position preserved. -/
structure ClientPlayerView where
  name : String
  kind : PlayerKind
  seatIndex : Nat
  hand : List (Option Card)
  score : Nat
  isLocal : Bool
deriving DecidableEq, Repr

/-- The per-seat filtered view (`ws-messages.ts` `ClientGameView`). -/
structure ClientGameView where
  players : List ClientPlayerView
  currentTurnSeat : Nat
  localSeat : Nat
  deckCount : Nat
  discardPile : List Card
  drawnCard : Option Card
  activePower : Option PowerType
  powerSourceSeat : Option Nat
  swapSource : Option (Nat × Nat)
  phase : ServerPhase
  turnCount : Nat
  winnerSeat : Option Nat

/-- The per-player lambda of `buildClientView`'s `players` map: reveal the
card to its owner and whenever it is face-up or peeking, else `null`. -/
def viewOfPlayer (gs : ServerGameState) (forSeat : Nat) (p : PlayerInfo) :
    ClientPlayerView :=
  { name := p.name,
    kind := p.kind,
    seatIndex := p.seatIndex,
    hand := p.hand.map (fun card =>
      if p.seatIndex = forSeat ∨ card.isFaceUp ∨ card.isPeeking then some card
      else none),
    score := if gs.phase = ServerPhase.game_over then p.score else 0,
    isLocal := p.seatIndex = forSeat }

/-- `game-room.ts` `buildClientView`: opponents' cards are nulled unless
face-up or peeking, the drawn card is shown only to the seat on turn, and
scores read 0 until game over. -/
def buildClientView (gs : ServerGameState) (forSeat : Nat) : ClientGameView :=
  { players := gs.players.map (viewOfPlayer gs forSeat),
    currentTurnSeat := gs.currentTurnSeat,
    localSeat := forSeat,
    deckCount := gs.deck.length,
    discardPile := gs.discardPile,
    drawnCard := if gs.currentTurnSeat = forSeat then gs.drawnCard else none,
    activePower := gs.activePower,
    powerSourceSeat := gs.powerSourceSeat,
    swapSource := gs.swapSource,
    phase := gs.phase,
    turnCount := gs.turnCount,
    winnerSeat := gs.winnerSeat }

/-- A store toast (`types/game.ts` `Toast` plus the optional `seatIndex`
argument of `addToast`; the random `id` is presentation bookkeeping and
is omitted). -/
structure Toast where
  message : String
  toastType : ToastType
  seatIndex : Option Nat
deriving DecidableEq, Repr

/-- The offline store state (`types/game.ts` `GameState`), restricted to
the game fields: the toast list, `roomId` and the timer/volume fields
(`turnTimer`, `turnTimerMax`, `masterVolume`, `musicVolume`, `sfxVolume`)
are presentation bookkeeping and are omitted. -/
structure GameState where
  phase : GamePhase
  difficulty : Difficulty
  deck : List Card
  discardPile : List Card
  players : List PlayerInfo
  currentTurnSeat : Nat
  localPlayerSeat : Nat
  drawnCard : Option Card
  drawnFrom : Option DrawSource
  activePower : Option PowerType
  powerSourceSeat : Option Nat
  aiMemories : Nat → Option AIMemory
  winnerSeat : Option Nat
  turnCount : Nat
  isOnline : Bool
  swapSource : Option (Nat × Nat)
  isDiscardBurned : Bool

/-- `game-store.ts` `_endGame`: reveal, score, pick the winner (same
first-strictly-lowest loop as the server), announce, phase → game_over. -/
def endGameStore (s : GameState) : GameState × List Toast :=
  let newPlayers := s.players.map revealAndScore
  let pw := winnerFold newPlayers
  let winnerSeat := pw.1
  let lowest := pw.2.getD 0
  let winnerName :=
    match newPlayers[winnerSeat]? with
    | some wp => wp.name
    | none => "undefined"
  let toast : Toast :=
    match newPlayers.find? (fun p => p.isLocal) with
    | some lp =>
      if lp.seatIndex = winnerSeat then
        { message := "You win with " ++ toString lowest ++ " points!",
          toastType := ToastType.success, seatIndex := none }
      else
        { message := winnerName ++ " wins with " ++ toString lowest ++ " points!",
          toastType := ToastType.warning, seatIndex := none }
    | none =>
      { message := winnerName ++ " wins with " ++ toString lowest ++ " points!",
        toastType := ToastType.warning, seatIndex := none }
  ({ s with
      phase := GamePhase.game_over,
      players := newPlayers,
      winnerSeat := some winnerSeat },
    [toast])

/-- `game-store.ts` `_endTurn`.  Ends the game when the deck is empty;
otherwise advances the seat, increments the round counter on wrap to
seat 0 and clears the pending swap source.  The phase is reset to
`turn_draw` only for an AI or locally controlled next player (for an AI
the source then schedules `executeAITurn` on a timer, which is outside
this synchronous embedding).  The out-of-bounds seat fallback is
unreachable in a four-player state. -/
def endTurnStore (s : GameState) : GameState × List Toast :=
  if s.deck = [] then endGameStore s
  else
    let nextSeat := getNextSeat s.currentTurnSeat
    match s.players[nextSeat]? with
    | none => (s, [])
    | some nextPlayer =>
      let s1 := { s with
        currentTurnSeat := nextSeat,
        turnCount := s.turnCount + (if nextSeat = 0 then 1 else 0),
        swapSource := none }
      if nextPlayer.kind = PlayerKind.ai then
        ({ s1 with phase := GamePhase.turn_draw }, [])
      else if nextPlayer.isLocal then
        ({ s1 with phase := GamePhase.turn_draw }, [])
      else
        (s1, [])

/-- `game-store.ts` `drawFromDeck` (guards: phase, non-empty deck, the
current player is locally controlled). -/
def drawFromDeck (s : GameState) : GameState × List Toast :=
  match s.deck with
  | [] => (s, [])
  | c :: rest =>
    if s.phase ≠ GamePhase.turn_draw then (s, [])
    else
      match s.players[s.currentTurnSeat]? with
      | none => (s, [])
      | some current =>
        if ¬current.isLocal then (s, [])
        else
          ({ s with
              deck := rest,
              drawnCard := some { c with isFaceUp := true },
              drawnFrom := some DrawSource.deck,
              phase := GamePhase.turn_decision },
            [])

/-- `game-store.ts` `drawFromDiscard`: same guards as `drawFromDeck` plus
the discard-burn rule — when `isDiscardBurned` is set the pickup is
rejected with a warning toast and no state change. -/
def drawFromDiscard (s : GameState) : GameState × List Toast :=
  match s.discardPile.getLast? with
  | none => (s, [])
  | some top =>
    if s.phase ≠ GamePhase.turn_draw then (s, [])
    else
      match s.players[s.currentTurnSeat]? with
      | none => (s, [])
      | some current =>
        if ¬current.isLocal then (s, [])
        else if s.isDiscardBurned then
          (s, [{ message := "Cannot pick up! Power was used.",
                 toastType := ToastType.warning, seatIndex := some s.currentTurnSeat }])
        else
          ({ s with
              discardPile := s.discardPile.dropLast,
              drawnCard := some { top with isFaceUp := true },
              drawnFrom := some DrawSource.discard,
              phase := GamePhase.turn_decision },
            [])

/-- `game-store.ts` `swapWithHand`.  The drawn card enters the hand with
`powerUsed` reset; the removed card goes to the discard pile and, per the
source's "Power Logic Change" comment, never triggers a power
(`const power = null`), so the burn flag is cleared and the turn ends.
The `usePower` parameter of the source is unused by its body.  An
out-of-bounds `handIndex` (a JS `TypeError`) is unreachable from the UI
and embedded as a no-op rejection. -/
def swapWithHand (s : GameState) (handIndex : Nat) (_usePower : Bool) :
    GameState × List Toast :=
  match s.drawnCard with
  | none => (s, [])
  | some drawn =>
    if s.phase ≠ GamePhase.turn_decision then (s, [])
    else
      match s.players[s.currentTurnSeat]? with
      | none => (s, [])
      | some current =>
        match current.hand[handIndex]? with
        | none => (s, [])
        | some slot =>
          if slot.isLocked then
            (s, [{ message := "That card is locked!",
                   toastType := ToastType.warning, seatIndex := some s.currentTurnSeat }])
          else
            let removedCard := { slot with isFaceUp := true }
            let newHand := current.hand.set handIndex
              { drawn with isFaceUp := false, powerUsed := false }
            let newPlayers := s.players.set s.currentTurnSeat
              { current with hand := newHand }
            let newDiscardPile := s.discardPile ++ [removedCard]
            let newMemories := fun a =>
              (s.aiMemories a).map (fun mem =>
                let m1 : AIMemory :=
                  { knownCards := fun se i =>
                      if se = s.currentTurnSeat ∧ i = handIndex then none
                      else mem.knownCards se i,
                    discardedCards := mem.discardedCards ++ [removedCard] }
                if a = s.currentTurnSeat then
                  updateMemory m1 s.currentTurnSeat handIndex drawn
                else m1)
            endTurnStore { s with
              players := newPlayers,
              discardPile := newDiscardPile,
              drawnCard := none,
              drawnFrom := none,
              aiMemories := newMemories,
              isDiscardBurned := false }

/-- `game-store.ts` `discardDrawn`.  Computes the drawn card's power (when
`usePower`), suppresses `unlock` when no card on the board is locked, and
either enters the power-target phase with the burn flag set, or clears
the burn flag and ends the turn.  In the power branch the source sets
`powerUsed` on the discarded card object after pushing it, so the pile
(and memory) entry carries `powerUsed = true`. -/
def discardDrawn (s : GameState) (usePower : Bool) : GameState × List Toast :=
  match s.drawnCard with
  | none => (s, [])
  | some drawn =>
    if s.phase ≠ GamePhase.turn_decision then (s, [])
    else
      let discarded := { drawn with isFaceUp := true }
      let power0 := if usePower then getCardPower discarded else none
      let anyLocked := s.players.any (fun p => p.hand.any (fun c => c.isLocked))
      let power := if power0 = some PowerType.unlock ∧ anyLocked = false then none else power0
      let toasts0 : List Toast :=
        if power0 = some PowerType.unlock ∧ anyLocked = false then
          [{ message := "No locked cards to unlock!",
             toastType := ToastType.info, seatIndex := some s.currentTurnSeat }]
        else []
      let discardedFinal :=
        match power with
        | some _ => { discarded with powerUsed := true }
        | none => discarded
      let newDiscardPile := s.discardPile ++ [discardedFinal]
      let newMemories := fun a =>
        (s.aiMemories a).map (fun mem =>
          { mem with discardedCards := mem.discardedCards ++ [discardedFinal] })
      let s1 := { s with
        discardPile := newDiscardPile,
        drawnCard := none,
        drawnFrom := none,
        aiMemories := newMemories }
      match power with
      | some p =>
        ({ s1 with
            activePower := some p,
            powerSourceSeat := some s.currentTurnSeat,
            phase := GamePhase.power_target,
            isDiscardBurned := true },
          toasts0 ++
            [{ message := (if discarded.isJoker then "Joker" else rankLabel discarded.rank)
                 ++ " power: " ++ powerName p ++ "!",
               toastType := ToastType.power, seatIndex := some s.currentTurnSeat }])
      | none =>
        let r := endTurnStore { s1 with isDiscardBurned := false }
        (r.1, toasts0 ++ r.2)

/-- The rotation direction union of `game-store.ts` `rotateHands`. -/
inductive RotateDir
  | left | right
deriving DecidableEq, Repr

/-- Uppercased direction name used in the rotation toast. -/
def rotateDirName (d : RotateDir) : String :=
  match d with
  | RotateDir.left => "LEFT"
  | RotateDir.right => "RIGHT"

/-- `game-store.ts` `rotateHands` — the offline resolution of the joker's
mass-swap power: rotates ALL FOUR hands one seat to the left or right
(locked slots travel with their hand), resets the known-card memory of
every AI seat (keeping only its discard history), clears the power and
ends the turn.  The burn flag is deliberately left `true` (source
comment). -/
def rotateHands (s : GameState) (direction : RotateDir) : GameState × List Toast :=
  if s.activePower ≠ some PowerType.mass_swap then (s, [])
  else
    let hands := s.players.map (fun p => p.hand)
    let newHands :=
      match direction with
      | RotateDir.left =>
        match hands.getLast? with
        | none => hands
        | some last => last :: hands.dropLast
      | RotateDir.right =>
        match hands with
        | [] => hands
        | first :: rest => rest ++ [first]
    let newPlayers := (s.players.zip newHands).map (fun pair => { pair.1 with hand := pair.2 })
    let newMemories := fun a =>
      if s.players.any (fun p => p.seatIndex = a ∧ p.kind = PlayerKind.ai) then
        some { knownCards := fun _ _ => none,
               discardedCards := ((s.aiMemories a).map (fun m => m.discardedCards)).getD [] }
      else none
    let toast : Toast :=
      { message := "Global Swap! Hands rotated to the " ++ rotateDirName direction ++ "!",
        toastType := ToastType.power, seatIndex := none }
    let r := endTurnStore { s with
      players := newPlayers,
      activePower := none,
      powerSourceSeat := none,
      aiMemories := newMemories,
      swapSource := none }
    (r.1, toast :: r.2)

/-- Well-formedness of a seated player list: exactly four players, seated
in order, each holding exactly four cards.  `createInitialState` (and
`startGame`) establish this and every transition preserves it. -/
def wfPlayers (players : List PlayerInfo) : Bool :=
  players.length == 4 &&
  (List.range 4).all (fun i =>
    match players[i]? with
    | some p => p.seatIndex == i && p.hand.length == 4
    | none => false)

/-- Well-formedness of a server state: well-formed players, the seat on
turn in range, and any pending swap source in range (the swap first step
validates its target before recording it). -/
def wfServer (s : ServerGameState) : Bool :=
  wfPlayers s.players &&
  decide (s.currentTurnSeat < 4) &&
  (match s.swapSource with
   | some src => decide (src.1 < 4) && decide (src.2 < 4)
   | none => true)

/-- Well-formedness of an offline store state (same shape conditions). -/
def wfStore (s : GameState) : Bool :=
  wfPlayers s.players &&
  decide (s.currentTurnSeat < 4) &&
  (match s.swapSource with
   | some src => decide (src.1 < 4) && decide (src.2 < 4)
   | none => true)

theorem wfPlayers_length {players : List PlayerInfo}
    (h : wfPlayers players = true) : players.length = 4 := by
  simp only [wfPlayers, Bool.and_eq_true, beq_iff_eq] at h
  exact h.1

theorem wfPlayers_get {players : List PlayerInfo}
    (h : wfPlayers players = true) {i : Nat} (hi : i < 4) :
    ∃ p, players[i]? = some p ∧ p.seatIndex = i ∧ p.hand.length = 4 := by
  simp only [wfPlayers, Bool.and_eq_true, beq_iff_eq, List.all_eq_true,
    List.mem_range] at h
  have hfour := h.1
  have hall := h.2 i hi
  match hp : players[i]? with
  | some p =>
    rw [hp] at hall
    simp only [Bool.and_eq_true, beq_iff_eq] at hall
    exact ⟨p, rfl, hall.1, hall.2⟩
  | none =>
    rw [hp] at hall
    simp at hall

theorem wfPlayers_handGet {p : PlayerInfo} (h : p.hand.length = 4)
    {j : Nat} (hj : j < 4) : ∃ c, p.hand[j]? = some c := by
  have : j < p.hand.length := by omega
  exact ⟨p.hand[j], List.getElem?_eq_getElem this⟩

theorem wfServer_players {s : ServerGameState} (h : wfServer s = true) :
    wfPlayers s.players = true := by
  simp only [wfServer, Bool.and_eq_true] at h
  exact h.1.1

theorem wfServer_seat {s : ServerGameState} (h : wfServer s = true) :
    s.currentTurnSeat < 4 := by
  simp only [wfServer, Bool.and_eq_true, decide_eq_true_eq] at h
  exact h.1.2

theorem wfServer_swapSource {s : ServerGameState} {src : Nat × Nat}
    (h : wfServer s = true) (hs : s.swapSource = some src) :
    src.1 < 4 ∧ src.2 < 4 := by
  simp only [wfServer, Bool.and_eq_true, decide_eq_true_eq] at h
  have h2 := h.2
  rw [hs] at h2
  simpa using h2

theorem wfStore_players {s : GameState} (h : wfStore s = true) :
    wfPlayers s.players = true := by
  simp only [wfStore, Bool.and_eq_true] at h
  exact h.1.1

theorem wfStore_seat {s : GameState} (h : wfStore s = true) :
    s.currentTurnSeat < 4 := by
  simp only [wfStore, Bool.and_eq_true, decide_eq_true_eq] at h
  exact h.1.2

/-- A plain face-down standard card, for concrete test states. -/
def sampleCard (id : String) (suit : Suit) (rank : Rank) : Card :=
  { id := id, suit := some suit, rank := some rank, isJoker := false,
    jokerColor := none, isFaceUp := false, isLocked := false,
    isSelected := false, isPeeking := false, powerUsed := false }

/-- A seated sample player. -/
def samplePlayer (i : Nat) (kind : PlayerKind) (name : String)
    (hand : List Card) (isLocal : Bool) : PlayerInfo :=
  { id := "seat-" ++ toString i, seatIndex := i, kind := kind, name := name,
    hand := hand, score := 0, isLocal := isLocal }

def sampleHand0 : List Card :=
  [sampleCard "c00" Suit.hearts Rank.n7, sampleCard "c01" Suit.clubs Rank.n3,
   sampleCard "c02" Suit.spades Rank.n9, sampleCard "c03" Suit.diamonds Rank.A]

def sampleHand1 : List Card :=
  [sampleCard "c10" Suit.hearts Rank.n4, sampleCard "c11" Suit.clubs Rank.n8,
   sampleCard "c12" Suit.spades Rank.n2, sampleCard "c13" Suit.diamonds Rank.n6]

def sampleHand2 : List Card :=
  [sampleCard "c20" Suit.hearts Rank.n5, sampleCard "c21" Suit.clubs Rank.J,
   sampleCard "c22" Suit.spades Rank.n3, sampleCard "c23" Suit.diamonds Rank.n2]

def sampleHand3 : List Card :=
  [sampleCard "c30" Suit.hearts Rank.n6, sampleCard "c31" Suit.clubs Rank.n9,
   sampleCard "c32" Suit.spades Rank.n8, sampleCard "c33" Suit.diamonds Rank.n5]

/-- A concrete four-player server state in the draw phase, of the shape
`createInitialState` produces. -/
def sampleServerState : ServerGameState :=
  { deck := [sampleCard "d0" Suit.spades Rank.n3, sampleCard "d1" Suit.hearts Rank.n5,
             sampleCard "d2" Suit.clubs Rank.n6],
    discardPile := [{ sampleCard "p0" Suit.clubs Rank.n2 with isFaceUp := true }],
    players :=
      [samplePlayer 0 PlayerKind.human "Alice" sampleHand0 true,
       samplePlayer 1 PlayerKind.ai "AI 2" sampleHand1 false,
       samplePlayer 2 PlayerKind.ai "AI 3" sampleHand2 false,
       samplePlayer 3 PlayerKind.ai "AI 4" sampleHand3 false],
    currentTurnSeat := 0,
    drawnCard := none,
    drawnFrom := none,
    activePower := none,
    powerSourceSeat := none,
    aiMemories := fun _ => none,
    winnerSeat := none,
    turnCount := 0,
    difficulty := Difficulty.beginner,
    phase := ServerPhase.turn_draw,
    swapSource := none }

/-- The matching offline store state. -/
def sampleStoreState : GameState :=
  { phase := GamePhase.turn_draw,
    difficulty := Difficulty.beginner,
    deck := sampleServerState.deck,
    discardPile := sampleServerState.discardPile,
    players := sampleServerState.players,
    currentTurnSeat := 0,
    localPlayerSeat := 0,
    drawnCard := none,
    drawnFrom := none,
    activePower := none,
    powerSourceSeat := none,
    aiMemories := fun _ => none,
    winnerSeat := none,
    turnCount := 0,
    isOnline := false,
    swapSource := none,
    isDiscardBurned := false }

theorem list_eq_four {α : Type _} {l : List α} (h : l.length = 4) :
    ∃ a b c d, l = [a, b, c, d] := by
  rcases l with _ | ⟨a, _ | ⟨b, _ | ⟨c, _ | ⟨d, _ | ⟨e, t⟩⟩⟩⟩⟩ <;>
    first
      | (exact ⟨a, b, c, d, rfl⟩)
      | (simp at h)

theorem getCardValue_reveal (c : Card) :
    getCardValue { c with isFaceUp := true } = getCardValue c := rfl

theorem calculateHandScore_aux (hand : List Card) (init : Nat) :
    hand.foldl (fun total card => total + getCardValue card) init =
    (hand.map (fun c => { c with isFaceUp := true })).foldl
      (fun total card => total + getCardValue card) init := by
  induction hand generalizing init with
  | nil => rfl
  | cons c t ih => simpa [List.foldl, getCardValue_reveal] using ih (init + getCardValue c)

theorem calculateHandScore_reveal (hand : List Card) :
    calculateHandScore (hand.map (fun c => { c with isFaceUp := true })) =
    calculateHandScore hand := by
  simpa [calculateHandScore] using (calculateHandScore_aux hand 0).symm

theorem revealAndScore_seatIndex (p : PlayerInfo) :
    (revealAndScore p).seatIndex = p.seatIndex := rfl

theorem revealAndScore_score (p : PlayerInfo) :
    (revealAndScore p).score = calculateHandScore p.hand := by
  simp [revealAndScore, calculateHandScore_reveal]

theorem winnerFold_four (q0 q1 q2 q3 : PlayerInfo)
    (h0 : q0.seatIndex = 0) (h1 : q1.seatIndex = 1)
    (h2 : q2.seatIndex = 2) (h3 : q3.seatIndex = 3) :
    (winnerFold [q0, q1, q2, q3]).1 < 4 ∧
    (∀ j, j < 4 →
      [q0.score, q1.score, q2.score, q3.score].getD (winnerFold [q0, q1, q2, q3]).1 0 ≤
      [q0.score, q1.score, q2.score, q3.score].getD j 0) ∧
    (∀ j, j < (winnerFold [q0, q1, q2, q3]).1 →
      [q0.score, q1.score, q2.score, q3.score].getD (winnerFold [q0, q1, q2, q3]).1 0 <
      [q0.score, q1.score, q2.score, q3.score].getD j 0) := by
  unfold winnerFold
  simp only [List.foldl, h0, h1, h2, h3]
  rcases Nat.lt_or_ge q1.score q0.score with c1 | c1
  · simp only [if_pos c1]
    rcases Nat.lt_or_ge q2.score q1.score with c2 | c2
    · simp only [if_pos c2]
      rcases Nat.lt_or_ge q3.score q2.score with c3 | c3
      · simp only [if_pos c3]
        refine ⟨by norm_num, ?_, ?_⟩ <;>
          (intro j hj; interval_cases j <;> simp [List.getD] <;> omega)
      · simp only [if_neg (Nat.not_lt.mpr c3)]
        refine ⟨by norm_num, ?_, ?_⟩ <;>
          (intro j hj; interval_cases j <;> simp [List.getD] <;> omega)
    · simp only [if_neg (Nat.not_lt.mpr c2)]
      rcases Nat.lt_or_ge q3.score q1.score with c3 | c3
      · simp only [if_pos c3]
        refine ⟨by norm_num, ?_, ?_⟩ <;>
          (intro j hj; interval_cases j <;> simp [List.getD] <;> omega)
      · simp only [if_neg (Nat.not_lt.mpr c3)]
        refine ⟨by norm_num, ?_, ?_⟩ <;>
          (intro j hj; interval_cases j <;> simp [List.getD] <;> omega)
  · simp only [if_neg (Nat.not_lt.mpr c1)]
    rcases Nat.lt_or_ge q2.score q0.score with c2 | c2
    · simp only [if_pos c2]
      rcases Nat.lt_or_ge q3.score q2.score with c3 | c3
      · simp only [if_pos c3]
        refine ⟨by norm_num, ?_, ?_⟩ <;>
          (intro j hj; interval_cases j <;> simp [List.getD] <;> omega)
      · simp only [if_neg (Nat.not_lt.mpr c3)]
        refine ⟨by norm_num, ?_, ?_⟩ <;>
          (intro j hj; interval_cases j <;> simp [List.getD] <;> omega)
    · simp only [if_neg (Nat.not_lt.mpr c2)]
      rcases Nat.lt_or_ge q3.score q0.score with c3 | c3
      · simp only [if_pos c3]
        refine ⟨by norm_num, ?_, ?_⟩ <;>
          (intro j hj; interval_cases j <;> simp [List.getD] <;> omega)
      · simp only [if_neg (Nat.not_lt.mpr c3)]
        refine ⟨by norm_num, ?_, ?_⟩ <;>
          (intro j hj; interval_cases j <;> simp [List.getD] <;> omega)

theorem endGame_revealed (l : List PlayerInfo) :
    ∀ p ∈ l.map revealAndScore, ∀ c ∈ p.hand, c.isFaceUp = true := by
  intro p hp c hc
  rcases List.mem_map.mp hp with ⟨q, _, rfl⟩
  have hc2 : c ∈ q.hand.map (fun c => { c with isFaceUp := true }) := by
    simpa [revealAndScore] using hc
  rcases List.mem_map.mp hc2 with ⟨c0, _, rfl⟩
  rfl

theorem endGame_phase (s : ServerGameState) (events : List GameEvent) :
    (endGame s events).state.phase = ServerPhase.game_over := rfl

theorem endGame_players (s : ServerGameState) (events : List GameEvent) :
    (endGame s events).state.players = s.players.map revealAndScore := rfl

theorem endGame_winnerSeat (s : ServerGameState) (events : List GameEvent) :
    (endGame s events).state.winnerSeat =
      some (winnerFold (s.players.map revealAndScore)).1 := rfl

/-- Consolidated behaviour of `endGame` on a well-formed state: all hands
revealed, scores summed, winner = first seat with the strictly lowest
score, phase game_over. -/
theorem endGame_spec (s : ServerGameState) (events : List GameEvent)
    (hwf : wfServer s = true) :
    (endGame s events).state.phase = ServerPhase.game_over ∧
    (∀ p ∈ (endGame s events).state.players, ∀ c ∈ p.hand, c.isFaceUp = true) ∧
    (∀ i, i < 4 → ∀ p q, s.players[i]? = some p →
      (endGame s events).state.players[i]? = some q →
      q.score = calculateHandScore p.hand) ∧
    (∃ w, (endGame s events).state.winnerSeat = some w ∧ w < 4 ∧
      (∀ j pw pj, j < 4 → (endGame s events).state.players[w]? = some pw →
        (endGame s events).state.players[j]? = some pj → pw.score ≤ pj.score) ∧
      (∀ j pw pj, j < w → (endGame s events).state.players[w]? = some pw →
        (endGame s events).state.players[j]? = some pj → pw.score < pj.score)) := by
  have hp := wfServer_players hwf
  have hlen := wfPlayers_length hp
  obtain ⟨p0, p1, p2, p3, hps⟩ := list_eq_four hlen
  obtain ⟨a0, ha0, hi0, _⟩ := wfPlayers_get hp (show 0 < 4 by norm_num)
  obtain ⟨a1, ha1, hi1, _⟩ := wfPlayers_get hp (show 1 < 4 by norm_num)
  obtain ⟨a2, ha2, hi2, _⟩ := wfPlayers_get hp (show 2 < 4 by norm_num)
  obtain ⟨a3, ha3, hi3, _⟩ := wfPlayers_get hp (show 3 < 4 by norm_num)
  rw [hps] at ha0 ha1 ha2 ha3
  have e0 : p0 = a0 := by simpa using ha0
  have e1 : p1 = a1 := by simpa using ha1
  have e2 : p2 = a2 := by simpa using ha2
  have e3 : p3 = a3 := by simpa using ha3
  subst e0 e1 e2 e3
  refine ⟨endGame_phase s events, endGame_revealed s.players, ?_, ?_⟩
  · intro i hi p q hpi hqi
    rw [endGame_players, List.getElem?_map, hpi] at hqi
    have hq : q = revealAndScore p := by simpa using hqi.symm
    rw [hq]
    exact revealAndScore_score p
  · have hmap : (endGame s events).state.players =
        [revealAndScore p0, revealAndScore p1, revealAndScore p2, revealAndScore p3] := by
      rw [endGame_players, hps]; rfl
    obtain ⟨W1, W2, W3⟩ := winnerFold_four (revealAndScore p0) (revealAndScore p1)
      (revealAndScore p2) (revealAndScore p3)
      (by rw [revealAndScore_seatIndex]; exact hi0)
      (by rw [revealAndScore_seatIndex]; exact hi1)
      (by rw [revealAndScore_seatIndex]; exact hi2)
      (by rw [revealAndScore_seatIndex]; exact hi3)
    have hwinner : (endGame s events).state.winnerSeat =
        some (winnerFold [revealAndScore p0, revealAndScore p1,
          revealAndScore p2, revealAndScore p3]).1 := by
      rw [endGame_winnerSeat, hps]; rfl
    rw [hmap, hwinner]
    refine ⟨_, rfl, W1, ?_, ?_⟩
    · intro j pw pj hj hpw hpj
      have hle := W2 j hj
      have hwc : (winnerFold [revealAndScore p0, revealAndScore p1,
          revealAndScore p2, revealAndScore p3]).1 = 0 ∨
          (winnerFold [revealAndScore p0, revealAndScore p1,
          revealAndScore p2, revealAndScore p3]).1 = 1 ∨
          (winnerFold [revealAndScore p0, revealAndScore p1,
          revealAndScore p2, revealAndScore p3]).1 = 2 ∨
          (winnerFold [revealAndScore p0, revealAndScore p1,
          revealAndScore p2, revealAndScore p3]).1 = 3 := by omega
      have hjc : j = 0 ∨ j = 1 ∨ j = 2 ∨ j = 3 := by omega
      rcases hwc with hw | hw | hw | hw <;>
        rw [hw] at hpw hle <;>
          rcases hjc with hj2 | hj2 | hj2 | hj2 <;>
            subst hj2 <;>
              simp_all [List.getD]
    · intro j pw pj hj hpw hpj
      have hj4 : j < 4 := lt_trans hj W1
      have hlt := W3 j hj
      have hwc : (winnerFold [revealAndScore p0, revealAndScore p1,
          revealAndScore p2, revealAndScore p3]).1 = 0 ∨
          (winnerFold [revealAndScore p0, revealAndScore p1,
          revealAndScore p2, revealAndScore p3]).1 = 1 ∨
          (winnerFold [revealAndScore p0, revealAndScore p1,
          revealAndScore p2, revealAndScore p3]).1 = 2 ∨
          (winnerFold [revealAndScore p0, revealAndScore p1,
          revealAndScore p2, revealAndScore p3]).1 = 3 := by omega
      have hjc : j = 0 ∨ j = 1 ∨ j = 2 ∨ j = 3 := by omega
      rcases hwc with hw | hw | hw | hw <;>
        rw [hw] at hpw hlt <;>
          rcases hjc with hj2 | hj2 | hj2 | hj2 <;>
            subst hj2 <;>
              simp_all [List.getD]

/-- Hands scoring [3, 0, 12, 7] (the spec's worked example): seat 1 must win. -/
def sampleScoringState : ServerGameState :=
  { sampleServerState with
    players :=
      [samplePlayer 0 PlayerKind.human "Alice"
        [sampleCard "s00" Suit.hearts Rank.A, sampleCard "s01" Suit.clubs Rank.n2,
         sampleCard "s02" Suit.spades Rank.n7, sampleCard "s03" Suit.diamonds Rank.n7] true,
       samplePlayer 1 PlayerKind.ai "AI 2"
        [sampleCard "s10" Suit.hearts Rank.n7, sampleCard "s11" Suit.clubs Rank.n7,
         sampleCard "s12" Suit.spades Rank.n7, sampleCard "s13" Suit.diamonds Rank.n7] false,
       samplePlayer 2 PlayerKind.ai "AI 3"
        [sampleCard "s20" Suit.hearts Rank.n3, sampleCard "s21" Suit.clubs Rank.n4,
         sampleCard "s22" Suit.spades Rank.n5, sampleCard "s23" Suit.diamonds Rank.n7] false,
       samplePlayer 3 PlayerKind.ai "AI 4"
        [sampleCard "s30" Suit.hearts Rank.n2, sampleCard "s31" Suit.clubs Rank.n2,
         sampleCard "s32" Suit.spades Rank.n3, sampleCard "s33" Suit.diamonds Rank.n7] false] }

/-- C7: when the game ends (`endGame`), every player's hand is revealed,
each player's score equals the sum of the card values of their cards
(7 counts 0, A counts 1, 10/J/Q/K/joker count 10, other ranks face
value), and the winner seat is the seat with the lowest summed score,
ties broken in favour of the first seat in seat order. -/
theorem C7_end_of_game_scoring (s : ServerGameState) (events : List GameEvent)
    (hwf : wfServer s = true) :
    (∀ c : Card, c.isJoker = true → getCardValue c = 10) ∧
    (∀ c : Card, c.isJoker = false →
      (c.rank = some Rank.n7 → getCardValue c = 0) ∧
      (c.rank = some Rank.A → getCardValue c = 1) ∧
      (c.rank = some Rank.n10 → getCardValue c = 10) ∧
      (c.rank = some Rank.J → getCardValue c = 10) ∧
      (c.rank = some Rank.Q → getCardValue c = 10) ∧
      (c.rank = some Rank.K → getCardValue c = 10) ∧
      (c.rank = some Rank.n2 → getCardValue c = 2) ∧
      (c.rank = some Rank.n3 → getCardValue c = 3) ∧
      (c.rank = some Rank.n4 → getCardValue c = 4) ∧
      (c.rank = some Rank.n5 → getCardValue c = 5) ∧
      (c.rank = some Rank.n6 → getCardValue c = 6) ∧
      (c.rank = some Rank.n8 → getCardValue c = 8) ∧
      (c.rank = some Rank.n9 → getCardValue c = 9)) ∧
    (endGame s events).state.phase = ServerPhase.game_over ∧
    (∀ p ∈ (endGame s events).state.players, ∀ c ∈ p.hand, c.isFaceUp = true) ∧
    (∀ i, i < 4 → ∀ p q, s.players[i]? = some p →
      (endGame s events).state.players[i]? = some q →
      q.score = calculateHandScore p.hand) ∧
    (∃ w, (endGame s events).state.winnerSeat = some w ∧ w < 4 ∧
      (∀ j pw pj, j < 4 → (endGame s events).state.players[w]? = some pw →
        (endGame s events).state.players[j]? = some pj → pw.score ≤ pj.score) ∧
      (∀ j pw pj, j < w → (endGame s events).state.players[w]? = some pw →
        (endGame s events).state.players[j]? = some pj → pw.score < pj.score)) := by
  obtain ⟨E1, E2, E3, E4⟩ := endGame_spec s events hwf
  refine ⟨?_, ?_, E1, E2, E3, E4⟩
  · intro c hj
    simp [getCardValue, hj]
  · intro c hj
    refine ⟨?_, ?_, ?_, ?_, ?_, ?_, ?_, ?_, ?_, ?_, ?_, ?_, ?_⟩ <;>
      (intro hr; simp [getCardValue, hj, hr])

theorem C7_end_of_game_scoring_witness :
    wfServer sampleScoringState = true ∧
    (endGame sampleScoringState []).state.phase = ServerPhase.game_over ∧
    (endGame sampleScoringState []).state.winnerSeat = some 1 :=
  ⟨by decide,
   (C7_end_of_game_scoring sampleScoringState [] (by decide)).2.2.1,
   by decide⟩

/-- C10: whenever the seat on turn is occupied by a human player,
`executeAITurnServer` does not reject — it takes the same early branch as
an exhausted deck and immediately ends the game: all hands revealed and
scored, the lowest-scoring seat recorded as the winner, phase game_over. -/
theorem C10_executeAITurn_human_ends_game (oracle : AIOracle) (s : ServerGameState)
    (p : PlayerInfo) (hwf : wfServer s = true)
    (hp : s.players[s.currentTurnSeat]? = some p) (hk : p.kind = PlayerKind.human) :
    executeAITurnServer oracle s = some (endGame s []) ∧
    (endGame s []).state.phase = ServerPhase.game_over ∧
    (∀ q ∈ (endGame s []).state.players, ∀ c ∈ q.hand, c.isFaceUp = true) ∧
    (∀ i, i < 4 → ∀ q r, s.players[i]? = some q →
      (endGame s []).state.players[i]? = some r →
      r.score = calculateHandScore q.hand) ∧
    (∃ w, (endGame s []).state.winnerSeat = some w ∧ w < 4 ∧
      (∀ j pw pj, j < 4 → (endGame s []).state.players[w]? = some pw →
        (endGame s []).state.players[j]? = some pj → pw.score ≤ pj.score) ∧
      (∀ j pw pj, j < w → (endGame s []).state.players[w]? = some pw →
        (endGame s []).state.players[j]? = some pj → pw.score < pj.score)) := by
  obtain ⟨E1, E2, E3, E4⟩ := endGame_spec s [] hwf
  refine ⟨?_, E1, E2, E3, E4⟩
  simp [executeAITurnServer, hp, hk]

theorem C10_executeAITurn_human_ends_game_witness :
    wfServer sampleServerState = true ∧
    executeAITurnServer
      { drawChoice := DrawSource.deck,
        decision := { action := AIAction.discard, swapIndex := none },
        powerDecision := none } sampleServerState =
      some (endGame sampleServerState []) :=
  ⟨by decide,
   (C10_executeAITurn_human_ends_game
      { drawChoice := DrawSource.deck,
        decision := { action := AIAction.discard, swapIndex := none },
        powerDecision := none }
      sampleServerState
      (samplePlayer 0 PlayerKind.human "Alice" sampleHand0 true)
      (by decide) rfl rfl).1⟩

/-- C8: the per-seat view nulls out every opponent hand card that is
neither face-up nor peeking (position and hand length preserved), shows
the card for the requester's own seat and for any face-up or peeking
card, shows the drawn card only to the seat on turn, and reports score 0
for every player until the phase is game_over. -/
theorem C8_view_filtering (s : ServerGameState) (forSeat : Nat) :
    (∀ (i : Nat) (p : PlayerInfo), s.players[i]? = some p →
      ∃ vp, (buildClientView s forSeat).players[i]? = some vp ∧
        vp.hand.length = p.hand.length ∧
        (∀ (j : Nat) (c : Card), p.hand[j]? = some c →
          (p.seatIndex ≠ forSeat → c.isFaceUp = false → c.isPeeking = false →
            vp.hand[j]? = some none) ∧
          (p.seatIndex = forSeat → vp.hand[j]? = some (some c)) ∧
          (c.isFaceUp = true ∨ c.isPeeking = true → vp.hand[j]? = some (some c))) ∧
        (s.phase = ServerPhase.game_over → vp.score = p.score) ∧
        (s.phase ≠ ServerPhase.game_over → vp.score = 0)) ∧
    (s.currentTurnSeat = forSeat → (buildClientView s forSeat).drawnCard = s.drawnCard) ∧
    (s.currentTurnSeat ≠ forSeat → (buildClientView s forSeat).drawnCard = none) := by
  refine ⟨?_, ?_, ?_⟩
  · intro i p hpi
    refine ⟨viewOfPlayer s forSeat p, ?_, ?_, ?_, ?_, ?_⟩
    · show (s.players.map (viewOfPlayer s forSeat))[i]? = _
      rw [List.getElem?_map, hpi]
      rfl
    · simp [viewOfPlayer]
    · intro j c hcj
      have hhand : (viewOfPlayer s forSeat p).hand[j]? =
          some (if p.seatIndex = forSeat ∨ c.isFaceUp ∨ c.isPeeking then some c else none) := by
        show (p.hand.map _)[j]? = _
        rw [List.getElem?_map, hcj]
        rfl
      refine ⟨?_, ?_, ?_⟩
      · intro hseat hup hpeek
        rw [hhand, if_neg]
        simp [hseat, hup, hpeek]
      · intro hseat
        rw [hhand, if_pos (Or.inl hseat)]
      · intro hflag
        rw [hhand, if_pos]
        rcases hflag with h | h
        · exact Or.inr (Or.inl (by simp [h]))
        · exact Or.inr (Or.inr (by simp [h]))
    · intro hphase
      simp [viewOfPlayer, hphase]
    · intro hphase
      simp [viewOfPlayer, hphase]
  · intro hseat
    simp [buildClientView, hseat]
  · intro hseat
    simp [buildClientView, hseat]

theorem C8_view_filtering_witness :
    ((buildClientView sampleServerState 1).players[0]?).map
      (fun vp => vp.hand[0]?) = some (some none) := by
  obtain ⟨vp, hvp, _, hhand, _, _⟩ :=
    (C8_view_filtering sampleServerState 1).1 0
      (samplePlayer 0 PlayerKind.human "Alice" sampleHand0 true) rfl
  have hres := (hhand 0 (sampleCard "c00" Suit.hearts Rank.n7) rfl).1 (by decide) rfl rfl
  rw [hvp]
  simp [hres]

theorem endTurnStore_advance (s : GameState) (q : PlayerInfo)
    (hdeck : s.deck ≠ [])
    (hq : s.players[getNextSeat s.currentTurnSeat]? = some q)
    (hkind : q.kind = PlayerKind.ai ∨ q.isLocal = true) :
    endTurnStore s =
      ({ s with
          currentTurnSeat := getNextSeat s.currentTurnSeat,
          turnCount := s.turnCount + (if getNextSeat s.currentTurnSeat = 0 then 1 else 0),
          swapSource := none,
          phase := GamePhase.turn_draw }, []) := by
  simp only [endTurnStore, if_neg hdeck, hq]
  rcases hkind with h | h
  · simp [h]
  · by_cases hai : q.kind = PlayerKind.ai
    · simp [hai]
    · simp [hai, h]

/-- A server state about to discard a drawn 10 (unlock) with no locked
card anywhere on the board. -/
def unlockDiscardState : ServerGameState :=
  { sampleServerState with
    phase := ServerPhase.turn_decision,
    drawnCard := some (sampleCard "dx" Suit.hearts Rank.n10),
    drawnFrom := some DrawSource.deck }

/-- C4 counterexample: on the server, discarding a drawn 10 while no card
on the board is locked still enters the power_target phase with the
unlock power active — `processDiscardDrawn` has no suppression check, so
the claim's "holds for both engines" is false for the server engine. -/
theorem C4_counterexample :
    (∀ p ∈ unlockDiscardState.players, ∀ c ∈ p.hand, c.isLocked = false) ∧
    getCardPower (sampleCard "dx" Suit.hearts Rank.n10) = some PowerType.unlock ∧
    (processDiscardDrawn unlockDiscardState 0).state.phase = ServerPhase.power_target ∧
    (processDiscardDrawn unlockDiscardState 0).state.activePower = some PowerType.unlock := by
  refine ⟨by decide, rfl, rfl, rfl⟩

/-- The intermediate store state of `discardDrawn` in the
unlock-suppressed branch, just before `_endTurn` runs: card on the pile,
drawn slot cleared, discard recorded in every memory, burn flag off. -/
def discardSuppressedMid (s : GameState) (c : Card) : GameState :=
  { s with
    discardPile := s.discardPile ++ [{ c with isFaceUp := true }],
    drawnCard := none,
    drawnFrom := none,
    aiMemories := fun a =>
      (s.aiMemories a).map (fun mem =>
        { mem with discardedCards := mem.discardedCards ++ [{ c with isFaceUp := true }] }),
    isDiscardBurned := false }

/-- C4 (amended): the unlock suppression holds in the offline engine
only.  In the offline store, discarding a drawn 10 (unlock power) while
no card in any hand is locked treats the power as a no-op: no
power_target phase, no active power, the burn flag cleared, and the turn
advances exactly as for a normal discard.  (The server engine does not
implement this check and enters power_target regardless, see the
counterexample.) -/
theorem C4_unlock_suppression_offline (s : GameState) (c : Card) (q : PlayerInfo)
    (hphase : s.phase = GamePhase.turn_decision)
    (hap : s.activePower = none)
    (hdrawn : s.drawnCard = some c)
    (hpow : getCardPower c = some PowerType.unlock)
    (hnolock : s.players.any (fun p => p.hand.any (fun card => card.isLocked)) = false)
    (hdeck : s.deck ≠ [])
    (hq : s.players[getNextSeat s.currentTurnSeat]? = some q)
    (hkind : q.kind = PlayerKind.ai ∨ q.isLocal = true) :
    (discardDrawn s true).1.phase = GamePhase.turn_draw ∧
    (discardDrawn s true).1.activePower = none ∧
    (discardDrawn s true).1.isDiscardBurned = false ∧
    (discardDrawn s true).1.currentTurnSeat = getNextSeat s.currentTurnSeat ∧
    (discardDrawn s true).1.discardPile = s.discardPile ++ [{ c with isFaceUp := true }] ∧
    (discardDrawn s true).1.drawnCard = none := by
  have hpow2 : getCardPower { c with isFaceUp := true } = some PowerType.unlock := hpow
  have hkey : discardDrawn s true =
      ((endTurnStore (discardSuppressedMid s c)).1,
        ({ message := "No locked cards to unlock!",
           toastType := ToastType.info, seatIndex := some s.currentTurnSeat } : Toast) ::
          (endTurnStore (discardSuppressedMid s c)).2) := by
    have hguard : ¬(s.phase ≠ GamePhase.turn_decision) := by simp [hphase]
    simp only [discardDrawn, hdrawn]
    rw [if_neg hguard]
    simp only [hpow2, hnolock]
    simp [discardSuppressedMid]
  have hq1 : (discardSuppressedMid s c).players[getNextSeat
      ((discardSuppressedMid s c).currentTurnSeat)]? = some q := hq
  have hdeck1 : (discardSuppressedMid s c).deck ≠ [] := hdeck
  rw [hkey]
  rw [endTurnStore_advance (discardSuppressedMid s c) q hdeck1 hq1 hkind]
  simp [discardSuppressedMid, hap]

/-- The offline counterpart of `unlockDiscardState`. -/
def unlockDiscardStore : GameState :=
  { sampleStoreState with
    phase := GamePhase.turn_decision,
    drawnCard := some (sampleCard "dx" Suit.hearts Rank.n10),
    drawnFrom := some DrawSource.deck }

theorem C4_unlock_suppression_offline_witness :
    (discardDrawn unlockDiscardStore true).1.phase = GamePhase.turn_draw ∧
    (discardDrawn unlockDiscardStore true).1.activePower = none ∧
    (discardDrawn unlockDiscardStore true).1.isDiscardBurned = false :=
  let T := C4_unlock_suppression_offline unlockDiscardStore
    (sampleCard "dx" Suit.hearts Rank.n10)
    (samplePlayer 1 PlayerKind.ai "AI 2" sampleHand1 false)
    rfl rfl rfl rfl (by decide) (by decide) rfl (Or.inl rfl)
  ⟨T.1, T.2.1, T.2.2.1⟩

theorem endTurnStore_burn (s : GameState) :
    (endTurnStore s).1.isDiscardBurned = s.isDiscardBurned := by
  unfold endTurnStore
  split
  · simp [endGameStore]
  · simp only []
    split
    · rfl
    · split_ifs <;> rfl

/-- Full characterisation of `discardDrawn` when the discarded card
triggers a power that is not suppressed: the pile gains the card (marked
`powerUsed`), the power becomes active, phase → power_target and the
discard is burned. -/
theorem discardDrawn_power (s : GameState) (c : Card) (p : PowerType)
    (hphase : s.phase = GamePhase.turn_decision)
    (hdrawn : s.drawnCard = some c)
    (hpow : getCardPower c = some p)
    (hun : p = PowerType.unlock →
      s.players.any (fun pl => pl.hand.any (fun card => card.isLocked)) = true) :
    discardDrawn s true =
      ({ s with
          discardPile := s.discardPile ++ [{ c with isFaceUp := true, powerUsed := true }],
          drawnCard := none,
          drawnFrom := none,
          aiMemories := fun a => (s.aiMemories a).map (fun mem =>
            { mem with discardedCards :=
                mem.discardedCards ++ [{ c with isFaceUp := true, powerUsed := true }] }),
          activePower := some p,
          powerSourceSeat := some s.currentTurnSeat,
          phase := GamePhase.power_target,
          isDiscardBurned := true },
        [{ message := (if c.isJoker then "Joker" else rankLabel c.rank) ++
             " power: " ++ powerName p ++ "!",
           toastType := ToastType.power, seatIndex := some s.currentTurnSeat }]) := by
  have hguard : ¬(s.phase ≠ GamePhase.turn_decision) := by simp [hphase]
  have hpow2 : getCardPower { c with isFaceUp := true } = some p := hpow
  simp only [discardDrawn, hdrawn]
  rw [if_neg hguard]
  simp only [hpow2]
  by_cases hpu : p = PowerType.unlock
  · subst hpu
    rw [hun rfl]
    simp
  · simp [hpu]

/-- A server state about to discard a drawn King (lock power). -/
def burnTestState : ServerGameState :=
  { sampleServerState with
    phase := ServerPhase.turn_decision,
    drawnCard := some (sampleCard "dk" Suit.hearts Rank.K),
    drawnFrom := some DrawSource.deck }

/-- C1 counterexample: on the server engine the burn rule does not exist.
Concretely: seat 0 discards a drawn King — the lock power triggers — and
resolves it on seat 1's card; the turn passes to seat 1, whose immediate
`processDrawFromDiscard` is then ACCEPTED (no warning, phase moves to
turn_decision, the freshly burned King ends up in seat 1's drawn slot)
instead of being rejected with the state unchanged. -/
theorem C1_counterexample :
    (processDiscardDrawn burnTestState 0).state.activePower = some PowerType.lock ∧
    (processDiscardDrawn burnTestState 0).state.phase = ServerPhase.power_target ∧
    ((processPowerTarget (processDiscardDrawn burnTestState 0).state 0 1 0).map
      (fun r =>
        ((processDrawFromDiscard r.state 1).state.phase,
         (processDrawFromDiscard r.state 1).state.drawnCard,
         (processDrawFromDiscard r.state 1).events)) =
      some (ServerPhase.turn_decision,
        some { sampleCard "dk" Suit.hearts Rank.K with isFaceUp := true },
        [])) := by
  refine ⟨rfl, rfl, rfl⟩

/-- C1 (amended): the discard-burn rule holds in the offline engine only;
the server engine implements no burn (see the counterexample).  In the
offline store: (a) while `isDiscardBurned` is set, `drawFromDiscard`
always leaves the state unchanged, and when the draw is otherwise legal
it is rejected with the burn warning toast; (b) every unsuppressed
power-triggering discard sets the flag (and enters power_target); (c)
every normal non-power discard clears it, whether the drawn card is
discarded directly or the removed hand card is discarded by
`swapWithHand`. -/
theorem C1_discard_burn_offline :
    (∀ s : GameState, s.isDiscardBurned = true → (drawFromDiscard s).1 = s) ∧
    (∀ (s : GameState) (top : Card) (cur : PlayerInfo),
      s.isDiscardBurned = true →
      s.phase = GamePhase.turn_draw →
      s.discardPile.getLast? = some top →
      s.players[s.currentTurnSeat]? = some cur →
      cur.isLocal = true →
      drawFromDiscard s = (s, [{
        message := "Cannot pick up! Power was used.",
        toastType := ToastType.warning,
        seatIndex := some s.currentTurnSeat }])) ∧
    (∀ (s : GameState) (c : Card) (p : PowerType),
      s.phase = GamePhase.turn_decision →
      s.drawnCard = some c →
      getCardPower c = some p →
      (p = PowerType.unlock →
        s.players.any (fun pl => pl.hand.any (fun card => card.isLocked)) = true) →
      (discardDrawn s true).1.isDiscardBurned = true ∧
      (discardDrawn s true).1.phase = GamePhase.power_target) ∧
    (∀ (s : GameState) (c : Card),
      s.phase = GamePhase.turn_decision →
      s.drawnCard = some c →
      getCardPower c = none →
      (discardDrawn s true).1.isDiscardBurned = false) ∧
    (∀ (s : GameState) (handIndex : Nat) (cur : PlayerInfo) (slot : Card),
      s.phase = GamePhase.turn_decision →
      s.drawnCard.isSome = true →
      s.players[s.currentTurnSeat]? = some cur →
      cur.hand[handIndex]? = some slot →
      slot.isLocked = false →
      (swapWithHand s handIndex true).1.isDiscardBurned = false) := by
  refine ⟨?_, ?_, ?_, ?_, ?_⟩
  · intro s hb
    unfold drawFromDiscard
    split
    · rfl
    · split
      · rfl
      · split
        · rfl
        · split_ifs <;> rfl
  · intro s top cur hb hphase htop hcur hloc
    have hguard : ¬(s.phase ≠ GamePhase.turn_draw) := by simp [hphase]
    simp only [drawFromDiscard, htop, hcur, if_neg hguard]
    rw [if_neg (show ¬(¬cur.isLocal = true) by simp [hloc])]
    rw [if_pos hb]
  · intro s c p hphase hdrawn hpow hun
    rw [discardDrawn_power s c p hphase hdrawn hpow hun]
    exact ⟨rfl, rfl⟩
  · intro s c hphase hdrawn hpow
    have hguard : ¬(s.phase ≠ GamePhase.turn_decision) := by simp [hphase]
    have hpow2 : getCardPower { c with isFaceUp := true } = none := hpow
    simp only [discardDrawn, hdrawn]
    rw [if_neg hguard]
    simp only [hpow2]
    simp [endTurnStore_burn]
  · intro s handIndex cur slot hphase hdrawn hcur hslot hlock
    match hdc : s.drawnCard with
    | none => rw [hdc] at hdrawn; simp at hdrawn
    | some drawn =>
      have hguard : ¬(s.phase ≠ GamePhase.turn_decision) := by simp [hphase]
      simp only [swapWithHand, hdc, if_neg hguard, hcur, hslot, hlock]
      simp [endTurnStore_burn]

/-- A burned offline state (the previous discard triggered a power). -/
def burnedStoreState : GameState :=
  { sampleStoreState with isDiscardBurned := true }

/-- An offline state about to discard a drawn King (lock power). -/
def kingDiscardStore : GameState :=
  { sampleStoreState with
    phase := GamePhase.turn_decision,
    drawnCard := some (sampleCard "dk" Suit.hearts Rank.K),
    drawnFrom := some DrawSource.deck }

/-- An offline state about to discard a drawn 5 (no power). -/
def fiveDiscardStore : GameState :=
  { sampleStoreState with
    phase := GamePhase.turn_decision,
    drawnCard := some (sampleCard "d5" Suit.hearts Rank.n5),
    drawnFrom := some DrawSource.deck,
    isDiscardBurned := true }

theorem C1_discard_burn_offline_witness :
    (drawFromDiscard burnedStoreState).1 = burnedStoreState ∧
    drawFromDiscard burnedStoreState =
      (burnedStoreState, [{
        message := "Cannot pick up! Power was used.",
        toastType := ToastType.warning,
        seatIndex := some 0 }]) ∧
    (discardDrawn kingDiscardStore true).1.isDiscardBurned = true ∧
    (discardDrawn fiveDiscardStore true).1.isDiscardBurned = false :=
  ⟨C1_discard_burn_offline.1 burnedStoreState rfl,
   C1_discard_burn_offline.2.1 burnedStoreState
     ({ sampleCard "p0" Suit.clubs Rank.n2 with isFaceUp := true })
     (samplePlayer 0 PlayerKind.human "Alice" sampleHand0 true)
     rfl rfl rfl rfl rfl,
   (C1_discard_burn_offline.2.2.1 kingDiscardStore
     (sampleCard "dk" Suit.hearts Rank.K) PowerType.lock
     rfl rfl rfl (by intro h; simp at h)).1,
   C1_discard_burn_offline.2.2.2.1 fiveDiscardStore
     (sampleCard "d5" Suit.hearts Rank.n5) rfl rfl rfl⟩

/-- A hand holding a King at index 1. -/
def kingHand : List Card :=
  [sampleCard "k00" Suit.hearts Rank.n4, sampleCard "k01" Suit.clubs Rank.K,
   sampleCard "k02" Suit.spades Rank.n9, sampleCard "k03" Suit.diamonds Rank.A]

/-- Server state: seat 0 in turn_decision holding a drawn 5, with a King
in hand slot 1. -/
def swapServerState : ServerGameState :=
  { sampleServerState with
    phase := ServerPhase.turn_decision,
    players :=
      [samplePlayer 0 PlayerKind.human "Alice" kingHand true,
       samplePlayer 1 PlayerKind.ai "AI 2" sampleHand1 false,
       samplePlayer 2 PlayerKind.ai "AI 3" sampleHand2 false,
       samplePlayer 3 PlayerKind.ai "AI 4" sampleHand3 false],
    drawnCard := some (sampleCard "d5x" Suit.hearts Rank.n5),
    drawnFrom := some DrawSource.deck }

/-- The offline store state with identical deck, pile, players, seat and
drawn card. -/
def swapStoreState : GameState :=
  { sampleStoreState with
    phase := GamePhase.turn_decision,
    players := swapServerState.players,
    drawnCard := swapServerState.drawnCard,
    drawnFrom := swapServerState.drawnFrom }

/-- C3 counterexample: from identical states (same deck, discard pile,
players, current seat and drawn card), swapping the drawn 5 into slot 1
(occupied by a King) triggers the King's lock power on the server —
phase power_target, activePower lock, the seat unchanged — while the
offline engine never triggers a power on swap-removal and advances the
turn to seat 1 with no active power.  The two engines do not implement
the same transition rules. -/
theorem C3_counterexample :
    swapStoreState.deck = swapServerState.deck ∧
    swapStoreState.discardPile = swapServerState.discardPile ∧
    swapStoreState.players = swapServerState.players ∧
    swapStoreState.currentTurnSeat = swapServerState.currentTurnSeat ∧
    swapStoreState.drawnCard = swapServerState.drawnCard ∧
    ((processSwapWithHand swapServerState 0 1).map
      (fun r => (r.state.phase, r.state.activePower, r.state.currentTurnSeat)) =
      some (ServerPhase.power_target, some PowerType.lock, 0)) ∧
    (swapWithHand swapStoreState 1 true).1.phase = GamePhase.turn_draw ∧
    (swapWithHand swapStoreState 1 true).1.activePower = none ∧
    (swapWithHand swapStoreState 1 true).1.currentTurnSeat = 1 := by
  exact ⟨rfl, rfl, rfl, rfl, rfl, rfl, rfl, rfl, rfl⟩

/-- C3 (amended): the two engines do share the draw-from-deck rule: from
corresponding states (same deck, discard pile, players, seat and drawn
card, both in the draw phase) with the offline guard (the current player
is locally controlled) and the server guard (the acting seat is the seat
on turn), `drawFromDeck` and `processDrawFromDeck` produce corresponding
results — whether the deck is empty (both reject unchanged) or not (both
draw the same card).  They do not share the other transitions: the
offline engine never triggers a power on swap-removal, checks the
discard burn, and suppresses unlock, none of which the server does
(see the counterexample). -/
theorem C3_drawFromDeck_agreement (o : GameState) (s : ServerGameState)
    (seat : Nat) (cur : PlayerInfo)
    (hdeck : o.deck = s.deck)
    (hpile : o.discardPile = s.discardPile)
    (hplayers : o.players = s.players)
    (hseat : o.currentTurnSeat = s.currentTurnSeat)
    (hdrawn : o.drawnCard = s.drawnCard)
    (hfrom : o.drawnFrom = s.drawnFrom)
    (hophase : o.phase = GamePhase.turn_draw)
    (hsphase : s.phase = ServerPhase.turn_draw)
    (hcur : o.players[o.currentTurnSeat]? = some cur)
    (hloc : cur.isLocal = true)
    (hact : seat = s.currentTurnSeat) :
    (drawFromDeck o).1.deck = (processDrawFromDeck s seat).state.deck ∧
    (drawFromDeck o).1.drawnCard = (processDrawFromDeck s seat).state.drawnCard ∧
    (drawFromDeck o).1.drawnFrom = (processDrawFromDeck s seat).state.drawnFrom ∧
    (drawFromDeck o).1.discardPile = (processDrawFromDeck s seat).state.discardPile ∧
    ((drawFromDeck o).1.phase = GamePhase.turn_decision ↔
      (processDrawFromDeck s seat).state.phase = ServerPhase.turn_decision) ∧
    (drawFromDeck o).1.currentTurnSeat = (processDrawFromDeck s seat).state.currentTurnSeat ∧
    (drawFromDeck o).1.players = (processDrawFromDeck s seat).state.players := by
  have hsguard : ¬(s.phase ≠ ServerPhase.turn_draw ∨ s.currentTurnSeat ≠ seat) := by
    simp [hsphase, hact]
  have hoguard : ¬(o.phase ≠ GamePhase.turn_draw) := by simp [hophase]
  cases hd : o.deck with
  | nil =>
    have hsd : s.deck = [] := by rw [← hdeck, hd]
    simp only [drawFromDeck, hd, processDrawFromDeck, hsd]
    simp [hdeck, hdrawn, hfrom, hpile, hplayers, hophase, hsphase, hseat]
  | cons c rest =>
    have hsd : s.deck = c :: rest := by rw [← hdeck, hd]
    simp only [drawFromDeck, hd, processDrawFromDeck, hsd, if_neg hoguard,
      if_neg hsguard, hcur, hloc]
    simp [hpile, hplayers, hseat]

theorem C3_drawFromDeck_agreement_witness :
    (drawFromDeck sampleStoreState).1.drawnCard =
      (processDrawFromDeck sampleServerState 0).state.drawnCard ∧
    (drawFromDeck sampleStoreState).1.deck =
      (processDrawFromDeck sampleServerState 0).state.deck :=
  let T := C3_drawFromDeck_agreement sampleStoreState sampleServerState 0
    (samplePlayer 0 PlayerKind.human "Alice" sampleHand0 true)
    rfl rfl rfl rfl rfl rfl rfl rfl rfl rfl rfl
  ⟨T.2.1, T.1⟩

/-- Invariant for the `mass_swap` loop after slots `< k` have been
processed: seats other than the two participants are untouched; the two
participants keep all their non-hand fields; slots `≥ k` are still
original; slots `< k` are exchanged exactly when both were unlocked. -/
def MassInv (ps0 : List PlayerInfo) (seat ts : Nat) (a b : PlayerInfo) (k : Nat)
    (ps : List PlayerInfo) : Prop :=
  ps.length = 4 ∧
  (∀ j, j ≠ seat → j ≠ ts → ps[j]? = ps0[j]?) ∧
  ∃ a' b', ps[seat]? = some a' ∧ ps[ts]? = some b' ∧
    a' = { a with hand := a'.hand } ∧ b' = { b with hand := b'.hand } ∧
    a'.hand.length = 4 ∧ b'.hand.length = 4 ∧
    (∀ i, k ≤ i → a'.hand[i]? = a.hand[i]? ∧ b'.hand[i]? = b.hand[i]?) ∧
    (∀ i ca cb, i < k → a.hand[i]? = some ca → b.hand[i]? = some cb →
      (ca.isLocked = false → cb.isLocked = false →
        a'.hand[i]? = some cb ∧ b'.hand[i]? = some ca) ∧
      (ca.isLocked = true ∨ cb.isLocked = true →
        a'.hand[i]? = some ca ∧ b'.hand[i]? = some cb))

theorem massSwapStep_adv (ps0 ps : List PlayerInfo) (seat ts k : Nat) (a b : PlayerInfo)
    (hst : seat ≠ ts) (hs4 : seat < 4) (ht4 : ts < 4) (hk : k < 4)
    (hal : a.hand.length = 4) (hbl : b.hand.length = 4)
    (hinv : MassInv ps0 seat ts a b k ps) :
    ∃ ps', massSwapStep seat ts ps k = some ps' ∧
      MassInv ps0 seat ts a b (k + 1) ps' := by
  obtain ⟨hlen, hother, a', b', ha', hb', hafields, hbfields, hal', hbl', hup, hdone⟩ := hinv
  have hsl : seat < ps.length := by omega
  have htl : ts < ps.length := by omega
  obtain ⟨ca, hca⟩ : ∃ ca, a.hand[k]? = some ca :=
    ⟨a.hand[k], List.getElem?_eq_getElem (by omega)⟩
  obtain ⟨cb, hcb⟩ : ∃ cb, b.hand[k]? = some cb :=
    ⟨b.hand[k], List.getElem?_eq_getElem (by omega)⟩
  have hca' : a'.hand[k]? = some ca := by rw [(hup k (le_refl k)).1, hca]
  have hcb' : b'.hand[k]? = some cb := by rw [(hup k (le_refl k)).2, hcb]
  by_cases hcl : ca.isLocked = false ∧ cb.isLocked = false
  · -- both unlocked: the slots are exchanged
    have hstep : massSwapStep seat ts ps k =
        some ((ps.set seat { a' with hand := a'.hand.set k cb }).set ts
          { b' with hand := b'.hand.set k ca }) := by
      have hb1 : (ps.set seat { a' with hand := a'.hand.set k cb })[ts]? = some b' := by
        rw [List.getElem?_set_ne (fun h => hst h), hb']
      simp only [massSwapStep, ha', hca', hb', hcb', hb1, Option.bind_eq_bind,
        Option.some_bind]
      rw [if_pos (by simp [hcl.1, hcl.2])]
    refine ⟨_, hstep, ?_, ?_, ?_⟩
    · simp [List.length_set, hlen]
    · intro j hjs hjt
      rw [List.getElem?_set_ne (fun h => hjt h.symm),
        List.getElem?_set_ne (fun h => hjs h.symm)]
      exact hother j hjs hjt
    · refine ⟨{ a' with hand := a'.hand.set k cb },
        { b' with hand := b'.hand.set k ca }, ?_, ?_, ?_, ?_, ?_, ?_, ?_, ?_⟩
      · rw [List.getElem?_set_ne (fun h => hst h.symm),
          List.getElem?_set_self (by omega)]
      · rw [List.getElem?_set_self (by simp only [List.length_set]; omega)]
      · rw [hafields]
      · rw [hbfields]
      · simp [hal']
      · simp [hbl']
      · intro i hi
        have hik : ¬(k = i) := by omega
        rw [List.getElem?_set_ne hik, List.getElem?_set_ne hik]
        exact hup i (by omega)
      · intro i cx cy hik hx hy
        by_cases hik2 : i = k
        · subst hik2
          have hcx : cx = ca := by rw [hca] at hx; exact (Option.some.inj hx.symm)
          have hcy : cy = cb := by rw [hcb] at hy; exact (Option.some.inj hy.symm)
          subst hcx hcy
          constructor
          · intro _ _
            constructor
            · rw [List.getElem?_set_self (by omega)]
            · rw [List.getElem?_set_self (by omega)]
          · intro habs
            rcases habs with h | h
            · rw [hcl.1] at h; cases h
            · rw [hcl.2] at h; cases h
        · have hik3 : ¬(k = i) := fun h => hik2 h.symm
          rw [List.getElem?_set_ne hik3, List.getElem?_set_ne hik3]
          exact hdone i cx cy (by omega) hx hy
  · -- one side locked: the slots are untouched
    have hstep : massSwapStep seat ts ps k = some ps := by
      simp only [massSwapStep, ha', hca', hb', hcb', Option.bind_eq_bind,
        Option.some_bind]
      rw [if_neg (by
        intro hco
        rcases hco with ⟨h1, h2⟩
        exact hcl ⟨by simpa using h1, by simpa using h2⟩)]
    refine ⟨ps, hstep, hlen, hother, a', b', ha', hb', hafields, hbfields, hal', hbl',
      ?_, ?_⟩
    · intro i hi
      exact hup i (by omega)
    · intro i cx cy hik hx hy
      by_cases hik2 : i = k
      · subst hik2
        have hcx : cx = ca := by rw [hca] at hx; exact (Option.some.inj hx.symm)
        have hcy : cy = cb := by rw [hcb] at hy; exact (Option.some.inj hy.symm)
        subst hcx hcy
        constructor
        · intro h1 h2
          exact absurd ⟨h1, h2⟩ hcl
        · intro _
          exact ⟨hca', hcb'⟩
      · exact hdone i cx cy (by omega) hx hy

theorem massSwapHands_spec (ps : List PlayerInfo) (seat ts : Nat) (a b : PlayerInfo)
    (hlen : ps.length = 4) (hst : seat ≠ ts)
    (ha : ps[seat]? = some a) (hb : ps[ts]? = some b)
    (hal : a.hand.length = 4) (hbl : b.hand.length = 4) :
    ∃ res, massSwapHands ps seat ts = some res ∧
      MassInv ps seat ts a b 4 res := by
  have hs4 : seat < 4 := by
    have := (List.getElem?_eq_some.mp ha).1
    omega
  have ht4 : ts < 4 := by
    have := (List.getElem?_eq_some.mp hb).1
    omega
  have h0 : MassInv ps seat ts a b 0 ps := by
    refine ⟨hlen, fun j _ _ => rfl, a, b, ha, hb, rfl, rfl, hal, hbl,
      fun i _ => ⟨rfl, rfl⟩, fun i cx cy hik _ _ => absurd hik (by omega)⟩
  obtain ⟨ps1, e1, i1⟩ := massSwapStep_adv ps ps seat ts 0 a b hst hs4 ht4
    (by omega) hal hbl h0
  obtain ⟨ps2, e2, i2⟩ := massSwapStep_adv ps ps1 seat ts 1 a b hst hs4 ht4
    (by omega) hal hbl i1
  obtain ⟨ps3, e3, i3⟩ := massSwapStep_adv ps ps2 seat ts 2 a b hst hs4 ht4
    (by omega) hal hbl i2
  obtain ⟨ps4, e4, i4⟩ := massSwapStep_adv ps ps3 seat ts 3 a b hst hs4 ht4
    (by omega) hal hbl i3
  refine ⟨ps4, ?_, i4⟩
  simp only [massSwapHands, List.foldlM, e1, e2, e3, e4, Option.bind_eq_bind,
    Option.some_bind]
  rfl

theorem finishPower_fields (s : ServerGameState) (nps : List PlayerInfo)
    (nmem : Nat → Option AIMemory) (evs : List GameEvent) (hdeck : s.deck ≠ []) :
    (finishPower s nps nmem evs).state.players = nps ∧
    (finishPower s nps nmem evs).state.aiMemories = nmem ∧
    (finishPower s nps nmem evs).state.phase = ServerPhase.turn_draw ∧
    (finishPower s nps nmem evs).state.currentTurnSeat = getNextSeat s.currentTurnSeat ∧
    (finishPower s nps nmem evs).state.activePower = none ∧
    (finishPower s nps nmem evs).state.swapSource = none ∧
    (finishPower s nps nmem evs).events = evs := by
  simp only [finishPower, advanceTurn]
  rw [if_neg hdeck]
  exact ⟨rfl, rfl, rfl, rfl, rfl, rfl, rfl⟩

/-- C6 (amended): the slot-by-slot mass swap description holds for the
SERVER engine: resolving the joker power against an opponent seat
exchanges exactly those hand positions where both sides are unlocked,
leaves every position with a locked side untouched on both hands, clears
both seats' known-card memory entries for every AI observer, and
advances the turn.  The OFFLINE mass-swap resolution (`rotateHands`) is
different: it rotates all four hands wholesale, locked slots included
(see the counterexample). -/
theorem C6_mass_swap_server (s : ServerGameState) (seat ts ti : Nat) (a b : PlayerInfo)
    (hwf : wfServer s = true)
    (_hphase : s.phase = ServerPhase.power_target)
    (hpow : s.activePower = some PowerType.mass_swap)
    (hseat : s.currentTurnSeat = seat)
    (hst : seat ≠ ts)
    (ha : s.players[seat]? = some a) (hb : s.players[ts]? = some b)
    (hdeck : s.deck ≠ []) :
    ∃ r, processPowerTarget s seat ts ti = some r ∧
      (∀ j, j ≠ seat → j ≠ ts → r.state.players[j]? = s.players[j]?) ∧
      (∃ a' b', r.state.players[seat]? = some a' ∧ r.state.players[ts]? = some b' ∧
        a' = { a with hand := a'.hand } ∧ b' = { b with hand := b'.hand } ∧
        (∀ (i : Nat) (ca cb : Card), a.hand[i]? = some ca → b.hand[i]? = some cb →
          (ca.isLocked = false → cb.isLocked = false →
            a'.hand[i]? = some cb ∧ b'.hand[i]? = some ca) ∧
          (ca.isLocked = true ∨ cb.isLocked = true →
            a'.hand[i]? = some ca ∧ b'.hand[i]? = some cb))) ∧
      (∀ (obs : Nat) (m' : AIMemory), r.state.aiMemories obs = some m' →
        ∀ i, m'.knownCards seat i = none ∧ m'.knownCards ts i = none) ∧
      r.state.phase = ServerPhase.turn_draw ∧
      r.state.currentTurnSeat = getNextSeat seat ∧
      r.state.activePower = none := by
  have hp := wfServer_players hwf
  have hlen := wfPlayers_length hp
  have hs4 : seat < 4 := by
    have := (List.getElem?_eq_some.mp ha).1
    omega
  have ht4 : ts < 4 := by
    have := (List.getElem?_eq_some.mp hb).1
    omega
  have hal : a.hand.length = 4 := by
    obtain ⟨p, hp1, _, hp3⟩ := wfPlayers_get hp hs4
    rw [ha] at hp1
    rw [Option.some.inj hp1]
    exact hp3
  have hbl : b.hand.length = 4 := by
    obtain ⟨p, hp1, _, hp3⟩ := wfPlayers_get hp ht4
    rw [hb] at hp1
    rw [Option.some.inj hp1]
    exact hp3
  have hguard : ¬(s.currentTurnSeat ≠ seat) := by simp [hseat]
  obtain ⟨res, hres, hinv⟩ :=
    massSwapHands_spec s.players seat ts a b hlen hst ha hb hal hbl
  have hr : processPowerTarget s seat ts ti =
      some (finishPower s res
        (fun obs => (s.aiMemories obs).map (fun mem =>
          { mem with knownCards := fun x i =>
              if x = seat ∨ x = ts then none else mem.knownCards x i }))
        [{ message := "Mass swap with " ++
             (match s.players[ts]? with
              | some p => p.name
              | none => "undefined") ++ "!",
           toastType := ToastType.power }]) := by
    simp only [processPowerTarget, hpow]
    rw [if_neg hguard]
    simp only [hres, Option.bind_eq_bind, Option.some_bind]
  obtain ⟨F1, F2, F3, F4, F5, F6, F7⟩ := finishPower_fields s res
    (fun obs => (s.aiMemories obs).map (fun mem =>
      { mem with knownCards := fun x i =>
          if x = seat ∨ x = ts then none else mem.knownCards x i }))
    [{ message := "Mass swap with " ++
         (match s.players[ts]? with
          | some p => p.name
          | none => "undefined") ++ "!",
       toastType := ToastType.power }] hdeck
  obtain ⟨hreslen, hother, a', b', ha', hb', haf, hbf, _, _, _, hdone⟩ := hinv
  refine ⟨_, hr, ?_, ⟨a', b', ?_, ?_, haf, hbf, ?_⟩, ?_, ?_, ?_, ?_⟩
  · intro j hjs hjt
    rw [F1]
    exact hother j hjs hjt
  · rw [F1]; exact ha'
  · rw [F1]; exact hb'
  · intro i ca cb hca hcb
    have hi4 : i < 4 := by
      have := (List.getElem?_eq_some.mp hca).1
      omega
    exact hdone i ca cb (by omega) hca hcb
  · intro obs m' hm
    rw [F2] at hm
    beta_reduce at hm
    cases hmem : s.aiMemories obs with
    | none => rw [hmem] at hm; simp at hm
    | some mem =>
      rw [hmem] at hm
      have hm2 : ({
          knownCards := fun x i =>
            if x = seat ∨ x = ts then none else mem.knownCards x i,
          discardedCards := mem.discardedCards } : AIMemory) = m' := by
        simpa using hm
      intro i
      rw [← hm2]
      exact ⟨by simp, by simp⟩
  · exact F3
  · rw [F4, hseat]
  · exact F5

/-- A locked card sitting in seat 0's hand. -/
def lockedCard : Card :=
  { sampleCard "LX" Suit.hearts Rank.n2 with isLocked := true }

/-- An offline state resolving the joker (mass_swap) power, with seat 0
holding a locked card at slot 0. -/
def rotStoreState : GameState :=
  { sampleStoreState with
    phase := GamePhase.power_target,
    activePower := some PowerType.mass_swap,
    powerSourceSeat := some 0,
    isDiscardBurned := true,
    players :=
      [samplePlayer 0 PlayerKind.human "Alice"
        [lockedCard, sampleCard "c01" Suit.clubs Rank.n3,
         sampleCard "c02" Suit.spades Rank.n9, sampleCard "c03" Suit.diamonds Rank.A] true,
       samplePlayer 1 PlayerKind.ai "AI 2" sampleHand1 false,
       samplePlayer 2 PlayerKind.ai "AI 3" sampleHand2 false,
       samplePlayer 3 PlayerKind.ai "AI 4" sampleHand3 false] }

/-- C6 counterexample: the offline mass-swap resolution (`rotateHands`)
does not skip locked slots and is not a two-seat exchange: seat 0's
LOCKED slot-0 card moves wholesale to seat 1 (which is not even the
chosen opponent of a two-seat swap — every hand rotates), so a slot with
a locked side does not keep its pre-swap occupant. -/
theorem C6_counterexample :
    lockedCard.isLocked = true ∧
    ((rotStoreState.players[0]?).map (fun p => p.hand[0]?) = some (some lockedCard)) ∧
    (((rotateHands rotStoreState RotateDir.left).1.players[1]?).map
      (fun p => p.hand[0]?) = some (some lockedCard)) ∧
    (((rotateHands rotStoreState RotateDir.left).1.players[0]?).map
      (fun p => p.hand) = some sampleHand3) := by
  exact ⟨rfl, rfl, rfl, rfl⟩

/-- A server state resolving the joker (mass_swap) power from seat 0
against seat 2, with locked slots on both sides. -/
def massSwapServerState : ServerGameState :=
  { sampleServerState with
    phase := ServerPhase.power_target,
    activePower := some PowerType.mass_swap,
    powerSourceSeat := some 0,
    players :=
      [samplePlayer 0 PlayerKind.human "Alice"
        [lockedCard, sampleCard "c01" Suit.clubs Rank.n3,
         sampleCard "c02" Suit.spades Rank.n9, sampleCard "c03" Suit.diamonds Rank.A] true,
       samplePlayer 1 PlayerKind.ai "AI 2" sampleHand1 false,
       samplePlayer 2 PlayerKind.ai "AI 3" sampleHand2 false,
       samplePlayer 3 PlayerKind.ai "AI 4" sampleHand3 false] }

theorem C6_mass_swap_server_witness :
    wfServer massSwapServerState = true ∧
    ((processPowerTarget massSwapServerState 0 2 0).map
      (fun r => (r.state.players[0]?).bind (fun p => p.hand[0]?)) =
      some (some lockedCard)) ∧
    ((processPowerTarget massSwapServerState 0 2 0).map
      (fun r => (r.state.players[2]?).bind (fun p => p.hand[1]?)) =
      some (some (sampleCard "c01" Suit.clubs Rank.n3))) := by
  have T := C6_mass_swap_server massSwapServerState 0 2 0
    (samplePlayer 0 PlayerKind.human "Alice"
      [lockedCard, sampleCard "c01" Suit.clubs Rank.n3,
       sampleCard "c02" Suit.spades Rank.n9, sampleCard "c03" Suit.diamonds Rank.A] true)
    (samplePlayer 2 PlayerKind.ai "AI 3" sampleHand2 false)
    (by decide) rfl rfl rfl (by decide) rfl rfl (by decide)
  obtain ⟨r, hr, _, ⟨a', b', ha', hb', _, _, hslots⟩, _⟩ := T
  have h0 := (hslots 0 lockedCard (sampleCard "c20" Suit.hearts Rank.n5) rfl rfl).2
    (Or.inl rfl)
  have h1 := (hslots 1 (sampleCard "c01" Suit.clubs Rank.n3)
    (sampleCard "c21" Suit.clubs Rank.J) rfl rfl).1 rfl rfl
  refine ⟨by decide, ?_, ?_⟩
  · rw [hr]
    simp [ha', h0.1]
  · rw [hr]
    simp [hb', h1.2]

/-- C5: a locked card is never a usable target for the peek, swap, lock
or mass-swap powers — peek and swap (either step) reject the selection
with a warning and an unchanged state; lock leaves the already-locked
card exactly as it was; mass swap skips the slot, both sides keeping
their occupants — while the unlock power can target a locked card
(clearing its lock) and changes no hand when aimed at an unlocked one. -/
theorem C5_locked_target_protection (s : ServerGameState) (seat ts ti : Nat)
    (tp : PlayerInfo) (tc : Card)
    (hwf : wfServer s = true)
    (_hphase : s.phase = ServerPhase.power_target)
    (hseat : s.currentTurnSeat = seat)
    (hdeck : s.deck ≠ [])
    (htp : s.players[ts]? = some tp)
    (htc : tp.hand[ti]? = some tc)
    (hlocked : tc.isLocked = true) :
    (s.activePower = some PowerType.peek →
      processPowerTarget s seat ts ti =
        some { state := s, events := [warnEvent ("Cannot peek at locked card")] }) ∧
    (s.activePower = some PowerType.swap → s.swapSource = none →
      processPowerTarget s seat ts ti =
        some { state := s, events := [warnEvent ("Cannot select locked card")] }) ∧
    (s.activePower = some PowerType.swap → ∀ src, s.swapSource = some src →
      ∃ ev, processPowerTarget s seat ts ti = some { state := s, events := [ev] } ∧
        ev.toastType = ToastType.warning) ∧
    (s.activePower = some PowerType.lock →
      ∃ r, processPowerTarget s seat ts ti = some r ∧
        ∃ tp', r.state.players[ts]? = some tp' ∧ tp'.hand[ti]? = some tc) ∧
    (s.activePower = some PowerType.mass_swap → seat ≠ ts →
      ∀ a ca, s.players[seat]? = some a → a.hand[ti]? = some ca →
      ∃ r, processPowerTarget s seat ts ti = some r ∧
        ∃ a' tp', r.state.players[seat]? = some a' ∧ r.state.players[ts]? = some tp' ∧
          a'.hand[ti]? = some ca ∧ tp'.hand[ti]? = some tc) ∧
    (s.activePower = some PowerType.unlock →
      ∃ r, processPowerTarget s seat ts ti = some r ∧
        ∃ tp', r.state.players[ts]? = some tp' ∧
          tp'.hand[ti]? = some { tc with isLocked := false }) ∧
    (∀ ts2 ti2 tp2 tc2, s.activePower = some PowerType.unlock →
      s.players[ts2]? = some tp2 → tp2.hand[ti2]? = some tc2 → tc2.isLocked = false →
      ∃ r, processPowerTarget s seat ts2 ti2 = some r ∧
        r.state.players = s.players) := by
  have hp := wfServer_players hwf
  have hlen := wfPlayers_length hp
  have hguard : ¬(s.currentTurnSeat ≠ seat) := by simp [hseat]
  have hts4 : ts < 4 := by
    have := (List.getElem?_eq_some.mp htp).1
    omega
  have htsl : ts < s.players.length := by omega
  have htil : ti < tp.hand.length := (List.getElem?_eq_some.mp htc).1
  refine ⟨?_, ?_, ?_, ?_, ?_, ?_, ?_⟩
  · intro hpow
    simp only [processPowerTarget, hpow]
    rw [if_neg hguard]
    simp only [htp, htc, Option.bind_eq_bind, Option.some_bind]
    rw [if_pos hlocked]
  · intro hpow hsrc
    simp only [processPowerTarget, hpow, hsrc]
    rw [if_neg hguard]
    simp only [htp, htc, Option.bind_eq_bind, Option.some_bind]
    rw [if_pos hlocked]
  · intro hpow src hsrc
    simp only [processPowerTarget, hpow, hsrc]
    rw [if_neg hguard]
    by_cases hsame : src.1 = ts ∧ src.2 = ti
    · rw [if_pos hsame]
      exact ⟨_, rfl, rfl⟩
    · rw [if_neg hsame]
      simp only [htp, htc, Option.bind_eq_bind, Option.some_bind]
      rw [if_pos hlocked]
      exact ⟨_, rfl, rfl⟩
  · intro hpow
    simp only [processPowerTarget, hpow]
    rw [if_neg hguard]
    simp only [htp, htc, Option.bind_eq_bind, Option.some_bind]
    refine ⟨_, rfl, ?_⟩
    obtain ⟨F1, _, _, _, _, _, _⟩ := finishPower_fields s
      (s.players.set ts { tp with hand := tp.hand.set ti { tc with isLocked := true } })
      s.aiMemories [infoEvent ("Locked " ++ tp.name ++ "\x27s card!")] hdeck
    refine ⟨{ tp with hand := tp.hand.set ti { tc with isLocked := true } }, ?_, ?_⟩
    · rw [F1]
      exact List.getElem?_set_self htsl
    · have : ({ tc with isLocked := true } : Card) = tc := by
        cases tc
        simp_all
      rw [this]
      exact List.getElem?_set_self htil
  · intro hpow hst a ca ha hca
    have hal : a.hand.length = 4 := by
      have hs4 : seat < 4 := by
        have := (List.getElem?_eq_some.mp ha).1
        omega
      obtain ⟨p, hp1, _, hp3⟩ := wfPlayers_get hp hs4
      rw [ha] at hp1
      rw [Option.some.inj hp1]
      exact hp3
    have hbl : tp.hand.length = 4 := by
      obtain ⟨p, hp1, _, hp3⟩ := wfPlayers_get hp hts4
      rw [htp] at hp1
      rw [Option.some.inj hp1]
      exact hp3
    obtain ⟨res, hres, hinv⟩ :=
      massSwapHands_spec s.players seat ts a tp hlen hst ha htp hal hbl
    have hr : processPowerTarget s seat ts ti =
        some (finishPower s res
          (fun obs => (s.aiMemories obs).map (fun mem =>
            { mem with knownCards := fun x i =>
                if x = seat ∨ x = ts then none else mem.knownCards x i }))
          [{ message := "Mass swap with " ++
               (match s.players[ts]? with
                | some p => p.name
                | none => "undefined") ++ "!",
             toastType := ToastType.power }]) := by
      simp only [processPowerTarget, hpow]
      rw [if_neg hguard]
      simp only [hres, Option.bind_eq_bind, Option.some_bind]
    obtain ⟨F1, _, _, _, _, _, _⟩ := finishPower_fields s res
      (fun obs => (s.aiMemories obs).map (fun mem =>
        { mem with knownCards := fun x i =>
            if x = seat ∨ x = ts then none else mem.knownCards x i }))
      [{ message := "Mass swap with " ++
           (match s.players[ts]? with
            | some p => p.name
            | none => "undefined") ++ "!",
         toastType := ToastType.power }] hdeck
    obtain ⟨_, _, a', b', ha', hb', _, _, _, _, _, hdone⟩ := hinv
    have hkept := (hdone ti ca tc (by omega) hca htc).2 (Or.inr hlocked)
    refine ⟨_, hr, a', b', ?_, ?_, hkept.1, hkept.2⟩
    · rw [F1]; exact ha'
    · rw [F1]; exact hb'
  · intro hpow
    simp only [processPowerTarget, hpow]
    rw [if_neg hguard]
    simp only [htp, htc, Option.bind_eq_bind, Option.some_bind]
    rw [if_pos hlocked]
    refine ⟨_, rfl, ?_⟩
    obtain ⟨F1, _, _, _, _, _, _⟩ := finishPower_fields s
      (s.players.set ts { tp with hand := tp.hand.set ti { tc with isLocked := false } })
      s.aiMemories [infoEvent ("Unlocked " ++ tp.name ++ "\x27s card!")] hdeck
    refine ⟨{ tp with hand := tp.hand.set ti { tc with isLocked := false } }, ?_, ?_⟩
    · rw [F1]
      exact List.getElem?_set_self htsl
    · exact List.getElem?_set_self htil
  · intro ts2 ti2 tp2 tc2 hpow htp2 htc2 hun
    simp only [processPowerTarget, hpow]
    rw [if_neg hguard]
    simp only [htp2, htc2, Option.bind_eq_bind, Option.some_bind]
    rw [if_neg (by simp [hun])]
    refine ⟨_, rfl, ?_⟩
    obtain ⟨F1, _, _, _, _, _, _⟩ := finishPower_fields s s.players s.aiMemories [] hdeck
    exact F1

/-- The mass-swap sample state, but with the peek power active. -/
def peekLockedState : ServerGameState :=
  { massSwapServerState with activePower := some PowerType.peek }

theorem C5_locked_target_protection_witness :
    wfServer peekLockedState = true ∧
    processPowerTarget peekLockedState 0 0 0 =
      some { state := peekLockedState,
             events := [warnEvent ("Cannot peek at locked card")] } :=
  ⟨by decide,
   (C5_locked_target_protection peekLockedState 0 0 0
     (samplePlayer 0 PlayerKind.human "Alice"
       [lockedCard, sampleCard "c01" Suit.clubs Rank.n3,
        sampleCard "c02" Suit.spades Rank.n9, sampleCard "c03" Suit.diamonds Rank.A] true)
     lockedCard (by decide) rfl rfl (by decide) rfl rfl rfl).1 rfl⟩

/-- C9: the swap power resolves in two steps.  With no pending source, a
first selection of an unlocked slot records it as the pending swap
source, leaving the seat on turn, the phase, and the active power
untouched; a second selection is rejected with the state unchanged when
it names the same slot or a locked slot, and otherwise exchanges the two
cards, clears the pending source and advances the turn; the pending
source is likewise cleared on every turn advance. -/
theorem C9_two_step_swap (s : ServerGameState) (seat ts ti : Nat)
    (tp : PlayerInfo) (tc : Card)
    (_hwf : wfServer s = true)
    (_hphase : s.phase = ServerPhase.power_target)
    (hpow : s.activePower = some PowerType.swap)
    (hseat : s.currentTurnSeat = seat)
    (htp : s.players[ts]? = some tp)
    (htc : tp.hand[ti]? = some tc) :
    (s.swapSource = none → tc.isLocked = false →
      processPowerTarget s seat ts ti =
        some { state := { s with swapSource := some (ts, ti) },
               events := [infoEvent ("Select second card to swap")] }) ∧
    (∀ src, s.swapSource = some src → src = (ts, ti) →
      processPowerTarget s seat ts ti =
        some { state := s, events := [warnEvent ("Select a different card")] }) ∧
    (∀ src, s.swapSource = some src → src ≠ (ts, ti) → tc.isLocked = true →
      processPowerTarget s seat ts ti =
        some { state := s, events := [warnEvent ("Cannot swap with locked card")] }) ∧
    (∀ ss si sp sc, s.swapSource = some (ss, si) → (ss, si) ≠ (ts, ti) →
      tc.isLocked = false →
      s.players[ss]? = some sp → sp.hand[si]? = some sc →
      s.deck ≠ [] →
      ∃ r, processPowerTarget s seat ts ti = some r ∧
        r.state.swapSource = none ∧
        r.state.activePower = none ∧
        r.state.phase = ServerPhase.turn_draw ∧
        r.state.currentTurnSeat = getNextSeat seat ∧
        (∃ q, r.state.players[ss]? = some q ∧ q.hand[si]? = some tc) ∧
        (∃ q, r.state.players[ts]? = some q ∧ q.hand[ti]? = some sc)) ∧
    (∀ (st : ServerGameState) (evs : List GameEvent), st.deck ≠ [] →
      (advanceTurn st evs).state.swapSource = none) := by
  have hguard : ¬(s.currentTurnSeat ≠ seat) := by simp [hseat]
  have htsl : ts < s.players.length := (List.getElem?_eq_some.mp htp).1
  have htil : ti < tp.hand.length := (List.getElem?_eq_some.mp htc).1
  refine ⟨?_, ?_, ?_, ?_, ?_⟩
  · intro hsrc hun
    simp only [processPowerTarget, hpow, hsrc]
    rw [if_neg hguard]
    simp only [htp, htc, Option.bind_eq_bind, Option.some_bind]
    rw [if_neg (by simp [hun])]
  · intro src hsrc hsame
    subst hsame
    simp only [processPowerTarget, hpow, hsrc]
    rw [if_neg hguard]
    rw [if_pos (by simp)]
  · intro src hsrc hdiff hlocked
    simp only [processPowerTarget, hpow, hsrc]
    rw [if_neg hguard]
    rw [if_neg (by
      intro hco
      exact hdiff (Prod.ext hco.1 hco.2))]
    simp only [htp, htc, Option.bind_eq_bind, Option.some_bind]
    rw [if_pos hlocked]
  · intro ss si sp sc hsrc hdiff hun hsp hsc hdeck
    have hssl : ss < s.players.length := (List.getElem?_eq_some.mp hsp).1
    have hsil : si < sp.hand.length := (List.getElem?_eq_some.mp hsc).1
    by_cases hsts : ss = ts
    · -- aliasing: both slots on the same hand
      subst hsts
      have hsptp : sp = tp := by
        rw [htp] at hsp
        exact (Option.some.inj hsp).symm
      subst hsptp
      have hsiti : ¬(si = ti) := by
        intro h
        exact hdiff (by rw [h])
      have hps1 : (s.players.set ss { sp with hand := sp.hand.set si tc })[ss]? =
          some { sp with hand := sp.hand.set si tc } :=
        List.getElem?_set_self hssl
      have hr : processPowerTarget s seat ss ti =
          some (finishPower s
            ((s.players.set ss { sp with hand := sp.hand.set si tc }).set ss
              { { sp with hand := sp.hand.set si tc } with
                  hand := (sp.hand.set si tc).set ti sc })
            (fun a => (s.aiMemories a).map (fun mem =>
              { mem with knownCards := fun x i =>
                  if (x = ss ∧ i = si) ∨ (x = ss ∧ i = ti) then none
                  else mem.knownCards x i }))
            [infoEvent ("Swapped cards!")]) := by
        simp only [processPowerTarget, hpow, hsrc]
        rw [if_neg hguard]
        rw [if_neg (by
          intro hco
          exact hsiti hco.2)]
        simp only [htp, htc, Option.bind_eq_bind, Option.some_bind]
        rw [if_neg (by simp [hun])]
        simp only [hsp, hsc, Option.bind_eq_bind, Option.some_bind, hps1]
      obtain ⟨F1, _, F3, F4, F5, F6, _⟩ := finishPower_fields s
        ((s.players.set ss { sp with hand := sp.hand.set si tc }).set ss
          { { sp with hand := sp.hand.set si tc } with
              hand := (sp.hand.set si tc).set ti sc })
        (fun a => (s.aiMemories a).map (fun mem =>
          { mem with knownCards := fun x i =>
              if (x = ss ∧ i = si) ∨ (x = ss ∧ i = ti) then none
              else mem.knownCards x i }))
        [infoEvent ("Swapped cards!")] hdeck
      have hq : ((s.players.set ss { sp with hand := sp.hand.set si tc }).set ss
          { { sp with hand := sp.hand.set si tc } with
              hand := (sp.hand.set si tc).set ti sc })[ss]? =
          some { sp with hand := (sp.hand.set si tc).set ti sc } := by
        rw [List.getElem?_set_self (by simp only [List.length_set]; omega)]
      refine ⟨_, hr, F6, F5, F3, by rw [F4, hseat], ?_, ?_⟩
      · refine ⟨_, by rw [F1]; exact hq, ?_⟩
        rw [List.getElem?_set_ne (fun h => hsiti h.symm)]
        exact List.getElem?_set_self hsil
      · refine ⟨_, by rw [F1]; exact hq, ?_⟩
        exact List.getElem?_set_self (by simp only [List.length_set]; omega)
    · -- distinct seats
      have hps1 : (s.players.set ss { sp with hand := sp.hand.set si tc })[ts]? =
          some tp := by
        rw [List.getElem?_set_ne (fun h => hsts h), htp]
      have hr : processPowerTarget s seat ts ti =
          some (finishPower s
            ((s.players.set ss { sp with hand := sp.hand.set si tc }).set ts
              { tp with hand := tp.hand.set ti sc })
            (fun a => (s.aiMemories a).map (fun mem =>
              { mem with knownCards := fun x i =>
                  if (x = ss ∧ i = si) ∨ (x = ts ∧ i = ti) then none
                  else mem.knownCards x i }))
            [infoEvent ("Swapped cards!")]) := by
        simp only [processPowerTarget, hpow, hsrc]
        rw [if_neg hguard]
        rw [if_neg (by
          intro hco
          exact hsts hco.1)]
        simp only [htp, htc, Option.bind_eq_bind, Option.some_bind]
        rw [if_neg (by simp [hun])]
        simp only [hsp, hsc, Option.bind_eq_bind, Option.some_bind, hps1]
      obtain ⟨F1, _, F3, F4, F5, F6, _⟩ := finishPower_fields s
        ((s.players.set ss { sp with hand := sp.hand.set si tc }).set ts
          { tp with hand := tp.hand.set ti sc })
        (fun a => (s.aiMemories a).map (fun mem =>
          { mem with knownCards := fun x i =>
              if (x = ss ∧ i = si) ∨ (x = ts ∧ i = ti) then none
              else mem.knownCards x i }))
        [infoEvent ("Swapped cards!")] hdeck
      refine ⟨_, hr, F6, F5, F3, by rw [F4, hseat], ?_, ?_⟩
      · refine ⟨{ sp with hand := sp.hand.set si tc }, ?_, ?_⟩
        · rw [F1]
          rw [List.getElem?_set_ne (fun h => hsts h.symm)]
          exact List.getElem?_set_self hssl
        · exact List.getElem?_set_self hsil
      · refine ⟨{ tp with hand := tp.hand.set ti sc }, ?_, ?_⟩
        · rw [F1]
          exact List.getElem?_set_self (by simp only [List.length_set]; omega)
        · exact List.getElem?_set_self htil
  · intro st evs hdeck
    simp only [advanceTurn]
    rw [if_neg hdeck]

/-- The sample state with the swap power active and no pending source. -/
def swapPowerState : ServerGameState :=
  { massSwapServerState with activePower := some PowerType.swap }

theorem C9_two_step_swap_witness :
    processPowerTarget swapPowerState 0 1 0 =
      some { state := { swapPowerState with swapSource := some (1, 0) },
             events := [infoEvent ("Select second card to swap")] } :=
  (C9_two_step_swap swapPowerState 0 1 0
    (samplePlayer 1 PlayerKind.ai "AI 2" sampleHand1 false)
    (sampleCard "c10" Suit.hearts Rank.n4)
    (by decide) rfl rfl rfl rfl rfl).1 rfl rfl

theorem wfPlayers_hands {players : List PlayerInfo} (h : wfPlayers players = true) :
    ∀ (j : Nat) (p : PlayerInfo), players[j]? = some p → p.hand.length = 4 := by
  intro j p hj
  have hj4 : j < 4 := by
    have hlt := (List.getElem?_eq_some.mp hj).1
    have hlen := wfPlayers_length h
    omega
  obtain ⟨q, hq, _, hq3⟩ := wfPlayers_get h hj4
  rw [hj] at hq
  rw [Option.some.inj hq]
  exact hq3

theorem massSwapStep_total (ps : List PlayerInfo) (seat ts k : Nat)
    (hlen : ps.length = 4) (hs4 : seat < 4) (ht4 : ts < 4) (hk : k < 4)
    (hhands : ∀ (j : Nat) (p : PlayerInfo), ps[j]? = some p → p.hand.length = 4) :
    ∃ ps', massSwapStep seat ts ps k = some ps' ∧ ps'.length = 4 ∧
      (∀ (j : Nat) (p : PlayerInfo), ps'[j]? = some p → p.hand.length = 4) := by
  have hsl : seat < ps.length := by omega
  have htl : ts < ps.length := by omega
  obtain ⟨a, ha⟩ : ∃ a, ps[seat]? = some a := ⟨_, List.getElem?_eq_getElem hsl⟩
  obtain ⟨b, hb⟩ : ∃ b, ps[ts]? = some b := ⟨_, List.getElem?_eq_getElem htl⟩
  have hal := hhands seat a ha
  have hbl := hhands ts b hb
  obtain ⟨ca, hca⟩ : ∃ ca, a.hand[k]? = some ca :=
    ⟨_, List.getElem?_eq_getElem (by omega)⟩
  obtain ⟨cb, hcb⟩ : ∃ cb, b.hand[k]? = some cb :=
    ⟨_, List.getElem?_eq_getElem (by omega)⟩
  by_cases hcl : ca.isLocked = false ∧ cb.isLocked = false
  · obtain ⟨b1, hb1⟩ : ∃ b1,
        (ps.set seat { a with hand := a.hand.set k cb })[ts]? = some b1 :=
      ⟨_, List.getElem?_eq_getElem (by simp only [List.length_set]; omega)⟩
    have hb1l : b1.hand.length = 4 := by
      by_cases he : seat = ts
      · subst he
        rw [List.getElem?_set_self hsl] at hb1
        have hinj := Option.some.inj hb1
        rw [← hinj]
        simpa using hal
      · rw [List.getElem?_set_ne (fun h => he h), hb] at hb1
        have hinj := Option.some.inj hb1
        rw [← hinj]
        exact hbl
    refine ⟨(ps.set seat { a with hand := a.hand.set k cb }).set ts
        { b1 with hand := b1.hand.set k ca }, ?_, ?_, ?_⟩
    · simp only [massSwapStep, ha, hca, hb, hcb, Option.bind_eq_bind, Option.some_bind]
      rw [if_pos (by simp [hcl.1, hcl.2])]
      simp only [hb1, Option.bind_eq_bind, Option.some_bind]
    · simp only [List.length_set]
      omega
    · intro j p hj
      by_cases hjt : j = ts
      · subst hjt
        rw [List.getElem?_set_self (by simp only [List.length_set]; omega)] at hj
        rw [← Option.some.inj hj]
        simpa using hb1l
      · rw [List.getElem?_set_ne (fun h => hjt h.symm)] at hj
        by_cases hjs : j = seat
        · subst hjs
          rw [List.getElem?_set_self hsl] at hj
          rw [← Option.some.inj hj]
          simpa using hal
        · rw [List.getElem?_set_ne (fun h => hjs h.symm)] at hj
          exact hhands j p hj
  · refine ⟨ps, ?_, hlen, hhands⟩
    simp only [massSwapStep, ha, hca, hb, hcb, Option.bind_eq_bind, Option.some_bind]
    rw [if_neg (by
      intro hco
      exact hcl ⟨by simpa using hco.1, by simpa using hco.2⟩)]

theorem massSwapHands_total (ps : List PlayerInfo) (seat ts : Nat)
    (hlen : ps.length = 4) (hs4 : seat < 4) (ht4 : ts < 4)
    (hhands : ∀ (j : Nat) (p : PlayerInfo), ps[j]? = some p → p.hand.length = 4) :
    ∃ res, massSwapHands ps seat ts = some res := by
  obtain ⟨ps1, e1, l1, h1⟩ := massSwapStep_total ps seat ts 0 hlen hs4 ht4
    (by omega) hhands
  obtain ⟨ps2, e2, l2, h2⟩ := massSwapStep_total ps1 seat ts 1 l1 hs4 ht4
    (by omega) h1
  obtain ⟨ps3, e3, l3, h3⟩ := massSwapStep_total ps2 seat ts 2 l2 hs4 ht4
    (by omega) h2
  obtain ⟨ps4, e4, _, _⟩ := massSwapStep_total ps3 seat ts 3 l3 hs4 ht4
    (by omega) h3
  refine ⟨ps4, ?_⟩
  simp only [massSwapHands, List.foldlM, e1, e2, e3, e4, Option.bind_eq_bind,
    Option.some_bind]
  rfl

/-- C2 counterexample: the transitions are not total on arbitrary
client-supplied input, and one rejection carries no event.  (1) In a
reachable decision state, `processSwapWithHand` with the out-of-range
`handIndex = 4` throws a TypeError (reading `isLocked` of `undefined`) —
embedded as `none` — instead of rejecting with the state unchanged.
(2) `processPowerTarget` with no active power returns the state
unchanged but with an EMPTY event list — no explicit invalid-action
event. -/
theorem C2_counterexample :
    processSwapWithHand swapServerState 0 4 = none ∧
    processPowerTarget sampleServerState 0 0 0 =
      some { state := sampleServerState, events := [] } :=
  ⟨rfl, rfl⟩

/-- C2 (amended): for in-range indices (handIndex, targetSeat,
targetIndex < 4) on a well-formed state, every transition is total:
`processDrawFromDeck`, `processDrawFromDiscard` and `processDiscardDrawn`
either return the state unchanged with the explicit invalid-action
warning, or their guard (right phase, acting seat on turn, non-empty
source) holds; `processSwapWithHand` returns a result that is either one
of its two explicit warning rejections (state unchanged) or its guard
holds; `processPowerTarget` returns a result, but its wrong-actor /
no-active-power rejection returns the unchanged state with NO event.
Out-of-range indices make `processSwapWithHand` and `processPowerTarget`
throw (see the counterexample). -/
theorem C2_transition_totality (s : ServerGameState) (seat hi ts ti : Nat)
    (hwf : wfServer s = true) (hhi : hi < 4) (hts : ts < 4) (hti : ti < 4) :
    (processDrawFromDeck s seat = { state := s, events := [invalidEvent] } ∨
      (s.phase = ServerPhase.turn_draw ∧ s.currentTurnSeat = seat ∧ s.deck ≠ [])) ∧
    (processDrawFromDiscard s seat = { state := s, events := [invalidEvent] } ∨
      (s.phase = ServerPhase.turn_draw ∧ s.currentTurnSeat = seat ∧
        s.discardPile ≠ [])) ∧
    (processDiscardDrawn s seat = { state := s, events := [invalidEvent] } ∨
      (s.phase = ServerPhase.turn_decision ∧ s.currentTurnSeat = seat ∧
        s.drawnCard ≠ none)) ∧
    (∃ r, processSwapWithHand s seat hi = some r ∧
      (r = { state := s, events := [invalidEvent] } ∨
       r = { state := s, events := [warnEvent ("Card is locked!")] } ∨
       (s.phase = ServerPhase.turn_decision ∧ s.currentTurnSeat = seat ∧
         s.drawnCard ≠ none))) ∧
    (∃ r, processPowerTarget s seat ts ti = some r ∧
      ((s.activePower = none ∨ s.currentTurnSeat ≠ seat) →
        r = { state := s, events := ([] : List GameEvent) })) := by
  have hp := wfServer_players hwf
  have hlen := wfPlayers_length hp
  have hhands := wfPlayers_hands hp
  refine ⟨?_, ?_, ?_, ?_, ?_⟩
  · cases hd : s.deck with
    | nil =>
      left
      simp [processDrawFromDeck, hd]
    | cons c rest =>
      by_cases hg : s.phase ≠ ServerPhase.turn_draw ∨ s.currentTurnSeat ≠ seat
      · left
        simp only [processDrawFromDeck, hd]
        rw [if_pos hg]
      · right
        push_neg at hg
        exact ⟨hg.1, hg.2, by simp⟩
  · cases hd : s.discardPile.getLast? with
    | none =>
      left
      simp [processDrawFromDiscard, hd]
    | some top =>
      by_cases hg : s.phase ≠ ServerPhase.turn_draw ∨ s.currentTurnSeat ≠ seat
      · left
        simp only [processDrawFromDiscard, hd]
        rw [if_pos hg]
      · right
        push_neg at hg
        refine ⟨hg.1, hg.2, ?_⟩
        intro h
        rw [h] at hd
        simp at hd
  · cases hd : s.drawnCard with
    | none =>
      left
      simp [processDiscardDrawn, hd]
    | some drawn =>
      by_cases hg : s.phase ≠ ServerPhase.turn_decision ∨ s.currentTurnSeat ≠ seat
      · left
        simp only [processDiscardDrawn, hd]
        rw [if_pos hg]
      · right
        push_neg at hg
        exact ⟨hg.1, hg.2, by simp⟩
  · cases hd : s.drawnCard with
    | none =>
      refine ⟨_, ?_, Or.inl rfl⟩
      simp [processSwapWithHand, hd]
    | some drawn =>
      by_cases hg : s.phase ≠ ServerPhase.turn_decision ∨ s.currentTurnSeat ≠ seat
      · refine ⟨_, ?_, Or.inl rfl⟩
        simp only [processSwapWithHand, hd]
        rw [if_pos hg]
      · push_neg at hg
        have hseat4 : seat < 4 := by
          rw [← hg.2]
          exact wfServer_seat hwf
        obtain ⟨player, hplayer⟩ : ∃ p, s.players[seat]? = some p :=
          ⟨_, List.getElem?_eq_getElem (by omega)⟩
        have hpl := hhands seat player hplayer
        obtain ⟨slot, hslot⟩ : ∃ c, player.hand[hi]? = some c :=
          ⟨_, List.getElem?_eq_getElem (by omega)⟩
        cases hlock : slot.isLocked with
        | true =>
          refine ⟨_, ?_, Or.inr (Or.inl rfl)⟩
          simp only [processSwapWithHand, hd]
          rw [if_neg (by simp [hg.1, hg.2])]
          simp only [hplayer, hslot, Option.bind_eq_bind, Option.some_bind]
          rw [if_pos hlock]
        | false =>
          have hkey : ∃ r, processSwapWithHand s seat hi = some r := by
            simp only [processSwapWithHand, hd]
            rw [if_neg (by simp [hg.1, hg.2])]
            simp only [hplayer, hslot, Option.bind_eq_bind, Option.some_bind]
            rw [if_neg (by simp [hlock])]
            cases getCardPower { slot with isFaceUp := true } <;> simp
          obtain ⟨r, hr⟩ := hkey
          exact ⟨r, hr, Or.inr (Or.inr ⟨hg.1, hg.2, by simp⟩)⟩
  · cases hpow : s.activePower with
    | none =>
      refine ⟨_, ?_, fun _ => rfl⟩
      simp [processPowerTarget, hpow]
    | some power =>
      by_cases hg : s.currentTurnSeat ≠ seat
      · refine ⟨_, ?_, fun _ => rfl⟩
        simp only [processPowerTarget, hpow]
        rw [if_pos hg]
      · obtain ⟨tp, htp⟩ : ∃ p, s.players[ts]? = some p :=
          ⟨_, List.getElem?_eq_getElem (by omega)⟩
        have htpl := hhands ts tp htp
        obtain ⟨tc, htc⟩ : ∃ c, tp.hand[ti]? = some c :=
          ⟨_, List.getElem?_eq_getElem (by omega)⟩
        have hseat4 : seat < 4 := by
          have h0 := wfServer_seat hwf
          simp only [not_not] at hg
          omega
        cases power with
        | unlock =>
          have : ∃ r, processPowerTarget s seat ts ti = some r := by
            simp only [processPowerTarget, hpow]
            rw [if_neg hg]
            simp only [htp, htc, Option.bind_eq_bind, Option.some_bind]
            cases tc.isLocked <;> simp
          obtain ⟨r, hr⟩ := this
          refine ⟨r, hr, ?_⟩
          intro hcontra
          rcases hcontra with h | h
          · cases h
          · exact absurd h hg
        | peek =>
          have : ∃ r, processPowerTarget s seat ts ti = some r := by
            simp only [processPowerTarget, hpow]
            rw [if_neg hg]
            simp only [htp, htc, Option.bind_eq_bind, Option.some_bind]
            cases tc.isLocked <;> simp
          obtain ⟨r, hr⟩ := this
          refine ⟨r, hr, ?_⟩
          intro hcontra
          rcases hcontra with h | h
          · cases h
          · exact absurd h hg
        | lock =>
          have : ∃ r, processPowerTarget s seat ts ti = some r := by
            simp only [processPowerTarget, hpow]
            rw [if_neg hg]
            simp only [htp, htc, Option.bind_eq_bind, Option.some_bind]
            exact ⟨_, rfl⟩
          obtain ⟨r, hr⟩ := this
          refine ⟨r, hr, ?_⟩
          intro hcontra
          rcases hcontra with h | h
          · cases h
          · exact absurd h hg
        | mass_swap =>
          obtain ⟨res, hres⟩ := massSwapHands_total s.players seat ts hlen hseat4
            hts hhands
          have : ∃ r, processPowerTarget s seat ts ti = some r := by
            simp only [processPowerTarget, hpow]
            rw [if_neg hg]
            simp only [hres, Option.bind_eq_bind, Option.some_bind]
            exact ⟨_, rfl⟩
          obtain ⟨r, hr⟩ := this
          refine ⟨r, hr, ?_⟩
          intro hcontra
          rcases hcontra with h | h
          · cases h
          · exact absurd h hg
        | swap =>
          cases hsrc : s.swapSource with
          | none =>
            have : ∃ r, processPowerTarget s seat ts ti = some r := by
              simp only [processPowerTarget, hpow, hsrc]
              rw [if_neg hg]
              simp only [htp, htc, Option.bind_eq_bind, Option.some_bind]
              cases tc.isLocked <;> simp
            obtain ⟨r, hr⟩ := this
            refine ⟨r, hr, ?_⟩
            intro hcontra
            rcases hcontra with h | h
            · cases h
            · exact absurd h hg
          | some src =>
            have hsrc4 := wfServer_swapSource hwf hsrc
            obtain ⟨sp, hsp⟩ : ∃ p, s.players[src.1]? = some p :=
              ⟨_, List.getElem?_eq_getElem (by omega)⟩
            have hspl := hhands src.1 sp hsp
            obtain ⟨sc, hsc⟩ : ∃ c, sp.hand[src.2]? = some c :=
              ⟨_, List.getElem?_eq_getElem (by omega)⟩
            obtain ⟨tp1, htp1⟩ : ∃ p,
                (s.players.set src.1 { sp with hand := sp.hand.set src.2 tc })[ts]? =
                  some p :=
              ⟨_, List.getElem?_eq_getElem (by simp only [List.length_set]; omega)⟩
            by_cases hsame : src.1 = ts ∧ src.2 = ti
            · have : ∃ r, processPowerTarget s seat ts ti = some r := by
                simp only [processPowerTarget, hpow, hsrc]
                rw [if_neg hg]
                rw [if_pos hsame]
                simp
              obtain ⟨r, hr⟩ := this
              refine ⟨r, hr, ?_⟩
              intro hcontra
              rcases hcontra with h | h
              · cases h
              · exact absurd h hg
            · have : ∃ r, processPowerTarget s seat ts ti = some r := by
                simp only [processPowerTarget, hpow, hsrc]
                rw [if_neg hg]
                rw [if_neg hsame]
                simp only [htp, htc, Option.bind_eq_bind, Option.some_bind]
                cases tc.isLocked with
                | true => simp
                | false =>
                  simp only [Bool.false_eq_true, if_false]
                  simp only [hsp, hsc, htp1, Option.bind_eq_bind, Option.some_bind]
                  exact ⟨_, rfl⟩
              obtain ⟨r, hr⟩ := this
              refine ⟨r, hr, ?_⟩
              intro hcontra
              rcases hcontra with h | h
              · cases h
              · exact absurd h hg

theorem C2_transition_totality_witness :
    wfServer sampleServerState = true ∧
    (processDrawFromDeck sampleServerState 1 =
      { state := sampleServerState, events := [invalidEvent] } ∨
      (sampleServerState.phase = ServerPhase.turn_draw ∧
        sampleServerState.currentTurnSeat = 1 ∧ sampleServerState.deck ≠ [])) ∧
    (∃ r, processSwapWithHand sampleServerState 1 0 = some r ∧
      (r = { state := sampleServerState, events := [invalidEvent] } ∨
       r = { state := sampleServerState, events := [warnEvent ("Card is locked!")] } ∨
       (sampleServerState.phase = ServerPhase.turn_decision ∧
         sampleServerState.currentTurnSeat = 1 ∧
         sampleServerState.drawnCard ≠ none))) :=
  let T := C2_transition_totality sampleServerState 1 0 0 0
    (by decide) (by decide) (by decide) (by decide)
  ⟨by decide, T.1, T.2.2.2.1⟩
